import Mathlib

/-!
# gled: Logitech G102/G203 LED control — argument parsing and packet encoding

A shallow embedding of `src/gled.go`.

* A Go `string` holding valid UTF-8 is modelled by its list of runes (`List Char`);
  `len` is the number of bytes of its UTF-8 encoding, as in Go.
* A Go `byte` is a `Nat` below 256, a Go `int` is an `Int` (64-bit target, `intSize = 64`);
  conversions that truncate are written with an explicit `% 256` / `% 2 ^ 64`.
* `log.Fatal`/`log.Fatalf` terminate the process: a function that may call them returns
  `Except Fatal _`, the error naming the call that was hit.
* The standard-library functions the program calls (`strconv.Atoi`, `fmt.Sscanf`,
  `strings.ToLower`) are modelled after the Go standard library, restricted to the
  arguments the program passes to them.
-/

namespace Gled

/-! ## Constants (gled.go, lines 14-27) -/

def packetSize : Nat := 20
def defaultRate : Int := 10000
def defaultBrightness : Int := 100
def modeStatic : Nat := 0x01
def modeCycle : Nat := 0x02
def modeBreathe : Nat := 0x03

/-! ## Go primitives -/

/-- Go `len(s)` of a string: the length in bytes of the UTF-8 encoding of its runes. -/
def len (s : List Char) : Nat := (s.map Char.utf8Size).sum

/-- Go conversion `byte(x)` of an `int`: the low eight bits. -/
def byte (x : Int) : Nat := (x % 256).toNat

/-- Go `make([]byte, n)`: a zeroed byte slice. -/
def make (n : Nat) : List Nat := List.replicate n 0

/-- Package flag, `flag.Arg(i)`: the i-th positional argument, the empty string when absent. -/
def flagArg (args : List (List Char)) (i : Nat) : List Char := args.getD i []

/-! ## strconv -/

/-- The two error kinds of a `strconv.NumError`. -/
inductive NumError where
  | ErrSyntax
  | ErrRange
  deriving DecidableEq, Repr

def intSize : Nat := 64
def maxUint64 : Nat := 2 ^ 64 - 1

/-- Package strconv, `lower(c)`: `c | ('x' - 'X')` on a byte. -/
def lower (c : Nat) : Nat := c ||| 0x20

/-- The digit value the loop of `strconv.ParseUint` gives to an input rune, `none` standing for
the `default:` branch (syntax error). A rune above 0x7F is encoded by bytes that are all at
least 0x80, and the first of them already reaches the `default:` branch. -/
def digitOf (c : Char) : Option Nat :=
  let b := c.toNat
  if 0x80 ≤ b then none
  else if 48 ≤ b ∧ b ≤ 57 then some (b - 48)
  else if 97 ≤ lower b ∧ lower b ≤ 122 then some (lower b - 97 + 10)
  else none

/-- The `for _, c := range []byte(s)` loop of `strconv.ParseUint` (base given, so no
underscores), with accumulator `n`. Returns the Go pair `(value, err)`. -/
def ParseUintLoop (base cutoff maxVal : Nat) : Nat → List Char → Nat × Option NumError
  | n, [] => (n, none)
  | n, c :: cs =>
    match digitOf c with
    | none => (0, some .ErrSyntax)
    | some d =>
      if base ≤ d then (0, some .ErrSyntax)
      else if cutoff ≤ n then (maxVal, some .ErrRange)          -- n*base overflows
      else
        let n0 := n * base
        let n1 := (n0 + d) % 2 ^ 64                              -- uint64 addition
        if n1 < n0 ∨ maxVal < n1 then (maxVal, some .ErrRange)   -- n+d overflows
        else ParseUintLoop base cutoff maxVal n1 cs

/-- Go `strconv.ParseUint(s, base, bitSize)` for an explicit base in 2..36. -/
def ParseUint (s : List Char) (base bitSize : Nat) : Nat × Option NumError :=
  if s = [] then (0, some .ErrSyntax)
  else
    let bitSize := if bitSize = 0 then intSize else bitSize
    let cutoff := maxUint64 / base + 1
    let maxVal := 2 ^ bitSize - 1
    ParseUintLoop base cutoff maxVal 0 s

/-- Go conversion `int64(x)` (two's complement wrap-around). -/
def int64 (x : Int) : Int := (x + 2 ^ 63) % 2 ^ 64 - 2 ^ 63

/-- Go `strconv.ParseInt(s, base, bitSize)`; the value returned next to an error is dropped. -/
def ParseInt (s : List Char) (base bitSize : Nat) : Except NumError Int :=
  match s with
  | [] => .error .ErrSyntax
  | c0 :: rest =>
    -- Pick off leading sign.
    let neg := (c0 = '-')
    let s1 := if c0 = '+' ∨ c0 = '-' then rest else s
    -- Convert unsigned and check range.
    match ParseUint s1 base bitSize with
    | (_, some .ErrSyntax) => .error .ErrSyntax
    | (un, _) =>
      let bitSize := if bitSize = 0 then intSize else bitSize
      let cutoff := 2 ^ (bitSize - 1)
      if ¬ neg ∧ cutoff ≤ un then .error .ErrRange
      else if neg ∧ cutoff < un then .error .ErrRange
      else
        let n := int64 un
        .ok (if neg then int64 (-n) else n)

/-- The digit loop of the fast path of `strconv.Atoi`: `ch -= '0'; if ch > 9 { syntax error };
n = n*10 + int(ch)`, the subtraction being on a byte. -/
def AtoiLoop : Int → List Char → Except NumError Int
  | n, [] => .ok n
  | n, c :: cs =>
    if 0x80 ≤ c.toNat then .error .ErrSyntax       -- first byte of a multi-byte rune
    else
      let ch := (c.toNat + 256 - 48) % 256
      if 9 < ch then .error .ErrSyntax
      else AtoiLoop (n * 10 + ch) cs

/-- Go `strconv.Atoi(s)` on a 64-bit target. -/
def Atoi (s : List Char) : Except NumError Int :=
  let sLen := len s
  if 0 < sLen ∧ sLen < 19 then
    -- Fast path for small integers that fit int type.
    match s with
    | [] => .error .ErrSyntax
    | c0 :: rest =>
      let s1 := if c0 = '-' ∨ c0 = '+' then rest else s
      if (c0 = '-' ∨ c0 = '+') ∧ s1.length < 1 then .error .ErrSyntax
      else
        match AtoiLoop 0 s1 with
        | .error e => .error e
        | .ok n => .ok (if c0 = '-' then -n else n)
  else
    -- Slow path for invalid, big, or underscored integers.
    ParseInt s 10 0

/-! ## fmt: scanning with `Sscanf` -/

/-- The errors `fmt.Sscanf` can report for the formats used by `hexToColor`. -/
inductive ScanError where
  | unexpectedEOF       -- io.ErrUnexpectedEOF: input exhausted where the format has a literal
  | inputMismatch       -- "input does not match format"
  | unexpectedNewline   -- "unexpected newline"
  | eof                 -- io.EOF: no input left for a verb
  | expectedInteger     -- "expected integer"
  | number (e : NumError)
  | overflow            -- "unsigned integer overflow on token"
  deriving DecidableEq, Repr

/-- Package fmt, `hugeWid`: the width used when none is given. -/
def hugeWid : Nat := 2 ^ 30

def hexadecimalDigits : List Char := "0123456789aAbBcCdDeEfF".toList

/-- Package fmt, `isSpace(r)`: membership in the table of Unicode white space. -/
def isSpace (r : Char) : Bool :=
  let x := r.toNat
  (0x0009 ≤ x ∧ x ≤ 0x000d) ∨ x = 0x0020 ∨ x = 0x0085 ∨ x = 0x00a0 ∨ x = 0x1680 ∨
  (0x2000 ≤ x ∧ x ≤ 0x200a) ∨ (0x2028 ≤ x ∧ x ≤ 0x2029) ∨ x = 0x202f ∨ x = 0x205f ∨
  x = 0x3000

/-- Package fmt, `(*ss).SkipSpace` in the mode of `Sscanf` (`nlIsSpace = false`). The reader is
given by the number `w` of runes that may still be read before `argLimit` and by the unread
input; `ReadRune` reports end of input when `w = 0`, `UnreadRune` gives the rune back. -/
def SkipSpace : Nat → List Char → Except ScanError (Nat × List Char)
  | w, [] => .ok (w, [])
  | 0, inp => .ok (0, inp)
  | w + 1, r :: rest =>
    if r = '\r' ∧ w ≠ 0 ∧ rest.head? = some '\n' then SkipSpace w rest
    else if r = '\n' then .error .unexpectedNewline
    else if ! isSpace r then .ok (w + 1, r :: rest)
    else SkipSpace w rest

/-- The loop `for s.accept(digits) {}` of `scanNumber`: the token read, then the reader. -/
def acceptLoop (digits : List Char) : Nat → List Char → List Char × Nat × List Char
  | w + 1, r :: rest =>
    if r ∈ digits then
      let (tok, w1, rest1) := acceptLoop digits w rest
      (r :: tok, w1, rest1)
    else ([], w + 1, r :: rest)
  | w, inp => ([], w, inp)

/-- Package fmt, `(*ss).scanNumber(digits, false)`. -/
def scanNumber (digits : List Char) : Nat → List Char → Except ScanError (List Char × Nat × List Char)
  | 0, _ => .error .eof                  -- notEOF
  | _, [] => .error .eof
  | w + 1, r :: rest =>
    if r ∈ digits then
      let (tok, w1, rest1) := acceptLoop digits w rest
      .ok (r :: tok, w1, rest1)
    else .error .expectedInteger

/-- Package fmt, `(*ss).scanUint('x', bitSize)`, the reader having `w` runes left before
`argLimit`. Returns the value and the unread input. -/
def scanUint (bitSize : Nat) (w : Nat) (inp : List Char) : Except ScanError (Nat × List Char) :=
  match SkipSpace w inp with
  | .error e => .error e
  | .ok (w1, inp1) =>
    match scanNumber hexadecimalDigits w1 inp1 with   -- getBase('x') = (16, hexadecimalDigits)
    | .error e => .error e
    | .ok (tok, _, inp2) =>
      match ParseUint tok 16 64 with
      | (_, some e) => .error (.number e)
      | (i, none) =>
        if i % 2 ^ bitSize ≠ i then .error .overflow
        else .ok (i, inp2)

/-- One directive `%<wid>x` of `doScanf` whose operand is a `*uint8`: white space is skipped
without limit, then at most `wid` runes are read for the number. (The limit `hugeWid` of the
whole scan is counted from the directive; the inputs of `hexToColor` have 4 or 7 bytes.) -/
def scanVerbX (wid : Nat) (inp : List Char) : Except ScanError (Nat × List Char) :=
  match SkipSpace hugeWid inp with
  | .error e => .error e
  | .ok (_, inp1) =>
    match scanUint 8 wid inp1 with
    | .error e => .error e
    | .ok (i, inp2) => .ok (i % 256, inp2)         -- *v = uint8(...)

/-- Go `fmt.Sscanf(s, "#%<wid>x%<wid>x%<wid>x", &R, &G, &B)` with `R`, `G`, `B` of type
`uint8`: the literal `#`, then three directives. Input left over after the last directive is
not looked at. The operands stored before an error are dropped. -/
def SscanfHexColor (wid : Nat) (s : List Char) : Except ScanError (Nat × Nat × Nat) :=
  match s with
  | [] => .error .unexpectedEOF                     -- mustReadRune
  | c :: rest =>
    if c ≠ '#' then .error .inputMismatch
    else
      match scanVerbX wid rest with
      | .error e => .error e
      | .ok (r, rest1) =>
        match scanVerbX wid rest1 with
        | .error e => .error e
        | .ok (g, rest2) =>
          match scanVerbX wid rest2 with
          | .error e => .error e
          | .ok (b, _) => .ok (r, g, b)

/-! ## strings -/

/-- Go `unicode.ToLower(r)` as far as a comparison with an ASCII word can tell: `A`..`Z` go to
`a`..`z`; the only runes above 0x7F with an ASCII lower case are U+0130 (to `i`) and U+212A
(to `k`); every other rune above 0x7F has a lower case above 0x7F and is left in place here. -/
def toLowerRune (r : Char) : Char :=
  if 'A'.toNat ≤ r.toNat ∧ r.toNat ≤ 'Z'.toNat then Char.ofNat (r.toNat + 32)
  else if r.toNat = 0x0130 then 'i'
  else if r.toNat = 0x212A then 'k'
  else r

/-- Go `strings.ToLower(s)`. -/
def ToLower (s : List Char) : List Char := s.map toLowerRune

/-! ## gled.go: argument parsers -/

/-- The `log.Fatal`/`log.Fatalf` call that ended the run. -/
inductive Fatal where
  | unknownMode              -- main: "Unknown mode"
  | missingArgument          -- handlers: "Missing ... argument for ... mode"
  | noColorArgument          -- parseHexColorToRGB: "No color argument found"
  | colorParse               -- parseHexColorToRGB: "Error parsing color argument"
  | toggleParse              -- parseToggleByte: "Error parsing toggle argument"
  | rateParse                -- parseRate: "Error parsing rate argument"
  | rateOutOfRange           -- parseRate: "Rate argument ... is out of range (100-60000)"
  | brightnessParse          -- parseBrightness: "Error parsing brightness argument"
  | brightnessOutOfRange     -- parseBrightness: "Brightness argument ... is out of range (1-100)"
  | payloadLength            -- sendRawPayload: "payload length must be 20 bytes"
  | openDevice               -- sendRawPayload: "Error opening device"
  | controlData              -- sendRawPayload: "Error sending control data"
  deriving DecidableEq, Repr

deriving instance DecidableEq for Except

/-- The error value of `hexToColor`. -/
inductive ColorError where
  | scan (e : ScanError)     -- the error of fmt.Sscanf
  | invalidFormat            -- "invalid hex color format"
  deriving DecidableEq, Repr

/-- Go `color.RGBA`. -/
structure RGBA where
  R : Nat
  G : Nat
  B : Nat
  A : Nat
  deriving DecidableEq, Repr

/-- Function `parseToggleByte` (gled.go, lines 237-248). -/
def parseToggleByte (toggleArg : List Char) : Except Fatal Nat :=
  if ToLower toggleArg = "on".toList then .ok 0x01
  else if ToLower toggleArg = "off".toList then .ok 0x02
  else .error .toggleParse

/-- Function `hexToColor` (gled.go, lines 268-284): converts an #RRGGBB or #RGB string to a
colour. The colour returned next to an error is dropped. -/
def hexToColor (s : List Char) : Except ColorError RGBA :=
  if len s = 7 then          -- #RRGGBB
    match SscanfHexColor 2 s with
    | .error e => .error (.scan e)
    | .ok (r, g, b) => .ok { R := r, G := g, B := b, A := 0xff }
  else if len s = 4 then     -- #RGB
    match SscanfHexColor 1 s with
    | .error e => .error (.scan e)
    | .ok (r, g, b) =>
      -- Double the hex digits: #ABC -> #AABBCC (uint8 arithmetic)
      .ok { R := r * 17 % 256, G := g * 17 % 256, B := b * 17 % 256, A := 0xff }
  else .error .invalidFormat

/-- Function `parseHexColorToRGB` (gled.go, lines 250-266). -/
def parseHexColorToRGB (colorArg : List Char) : Except Fatal (Nat × Nat × Nat) :=
  if colorArg = [] then .error .noColorArgument
  else
    let tempColorArg := if colorArg.head? = some '#' then colorArg else '#' :: colorArg
    match hexToColor tempColorArg with
    | .error _ => .error .colorParse
    | .ok c => .ok (c.R, c.G, c.B)

/-- Function `parseRate` (gled.go, lines 286-303). -/
def parseRate (rateArg : List Char) : Except Fatal Int :=
  if rateArg = [] then .ok defaultRate
  else
    match Atoi rateArg with
    | .error _ => .error .rateParse
    | .ok rate =>
      if rate < 100 ∨ rate > 60000 then .error .rateOutOfRange
      else .ok rate

/-- Function `parseBrightness` (gled.go, lines 305-322). -/
def parseBrightness (brightnessArg : List Char) : Except Fatal Int :=
  if brightnessArg = [] then .ok defaultBrightness
  else
    match Atoi brightnessArg with
    | .error _ => .error .brightnessParse
    | .ok brightness =>
      if brightness < 1 ∨ brightness > 100 then .error .brightnessOutOfRange
      else .ok brightness

/-! ## gled.go: the four handlers

Each handler is modelled up to its last statement: it returns the payload it hands to
`sendRawPayload`, or the fatal error that stopped it before. -/

/-- Function `setIntro` (gled.go, lines 116-136). -/
def setIntro (args : List (List Char)) : Except Fatal (List Nat) :=
  let toggleStr := flagArg args 1
  if toggleStr = [] then .error .missingArgument
  else
    match parseToggleByte toggleStr with
    | .error e => .error e
    | .ok toggleVal =>
      let payload := make packetSize
      let payload := payload.set 0 0x11
      let payload := payload.set 1 0xFF
      let payload := payload.set 2 0x0E
      let payload := payload.set 3 0x5B
      let payload := payload.set 4 0x00
      let payload := payload.set 5 0x01
      let payload := payload.set 6 toggleVal
      .ok payload

/-- Function `setSolid` (gled.go, lines 138-162). -/
def setSolid (args : List (List Char)) : Except Fatal (List Nat) :=
  let colorStr := flagArg args 1
  if colorStr = [] then .error .missingArgument
  else
    match parseHexColorToRGB colorStr with
    | .error e => .error e
    | .ok (r, g, b) =>
      let payload := make packetSize
      let payload := payload.set 0 0x11
      let payload := payload.set 1 0xFF
      let payload := payload.set 2 0x0E
      let payload := payload.set 3 0x10
      let payload := payload.set 4 0x00
      let payload := payload.set 5 modeStatic
      let payload := payload.set 6 r
      let payload := payload.set 7 g
      let payload := payload.set 8 b
      let payload := payload.set 9 0x02
      let payload := payload.set 16 0x01
      .ok payload

/-- Function `setCycle` (gled.go, lines 164-198). -/
def setCycle (args : List (List Char)) : Except Fatal (List Nat) :=
  let rateStr := flagArg args 1
  let brightnessStr := flagArg args 2
  if rateStr = [] ∨ brightnessStr = [] then .error .missingArgument
  else
    match parseRate rateStr with
    | .error e => .error e
    | .ok rate =>
      match parseBrightness brightnessStr with
      | .error e => .error e
      | .ok brightness =>
        let payload := make packetSize
        let payload := payload.set 0 0x11
        let payload := payload.set 1 0xFF
        let payload := payload.set 2 0x0E
        let payload := payload.set 3 0x10
        let payload := payload.set 4 0x00
        let payload := payload.set 5 modeCycle
        let payload := payload.set 6 0x00
        let payload := payload.set 7 0x00
        let payload := payload.set 8 0x00
        let payload := payload.set 11 (byte (Int.shiftRight rate 8))
        let payload := payload.set 12 (byte (Int.land rate 0xFF))
        let deviceBrightness := brightness * 5
        let payload := payload.set 13 (byte deviceBrightness)
        let payload := payload.set 16 0x01
        .ok payload

/-- Function `setBreathe` (gled.go, lines 200-235). -/
def setBreathe (args : List (List Char)) : Except Fatal (List Nat) :=
  let colorStr := flagArg args 1
  let rateStr := flagArg args 2
  let brightnessStr := flagArg args 3
  if colorStr = [] ∨ rateStr = [] ∨ brightnessStr = [] then .error .missingArgument
  else
    match parseHexColorToRGB colorStr with
    | .error e => .error e
    | .ok (r, g, b) =>
      match parseRate rateStr with
      | .error e => .error e
      | .ok rate =>
        match parseBrightness brightnessStr with
        | .error e => .error e
        | .ok brightness =>
          let payload := make packetSize
          let payload := payload.set 0 0x11
          let payload := payload.set 1 0xFF
          let payload := payload.set 2 0x0E
          let payload := payload.set 3 0x10
          let payload := payload.set 4 0x00
          let payload := payload.set 5 modeBreathe
          let payload := payload.set 6 r
          let payload := payload.set 7 g
          let payload := payload.set 8 b
          let payload := payload.set 9 (byte (Int.shiftRight rate 8))
          let payload := payload.set 10 (byte (Int.land rate 0xFF))
          let deviceBrightness := brightness * 5
          let payload := payload.set 12 (byte deviceBrightness)
          let payload := payload.set 16 0x01
          .ok payload

/-! ## gled.go: the device transport, `sendRawPayload` and `main`

The USB library is an external collaborator. What the process asks of it is recorded as a list
of events; what it answers is given by a `Usb` value. -/

def vendorID : Nat := 0x046d
def productID : Nat := 0xc092

/-- The arguments of one call `dev.Control(requestType, request, value, index, data)`. -/
structure ControlTransfer where
  requestType : Nat
  request : Nat
  value : Nat
  index : Nat
  data : List Nat
  deriving DecidableEq, Repr

/-- A call into the USB library that touches the device. -/
inductive Event where
  | openDevice (vid pid : Nat)         -- ctx.OpenDeviceWithVidPid(vid, pid)
  | control (t : ControlTransfer)      -- dev.Control(...)
  deriving DecidableEq, Repr

/-- The answers of the USB library: whether `OpenDeviceWithVidPid` returns a device, and
whether the k-th `Control` call on that device (k = 0, 1, ...) returns without error. -/
structure Usb where
  openDevice : Nat → Nat → Bool
  control : Nat → ControlTransfer → Bool

/-- Function `sendRawPayload` (gled.go, lines 73-114): the device events in order, and the
fatal error that ended the run or the normal return. -/
def sendRawPayload (usb : Usb) (payload : List Nat) : List Event × Except Fatal Unit :=
  if payload.length ≠ packetSize then ([], .error .payloadLength)
  else if ! usb.openDevice vendorID productID then
    ([.openDevice vendorID productID], .error .openDevice)
  else
    -- Send software control enable packet
    let initPacket := make packetSize
    let initPacket := initPacket.set 0 0x11
    let initPacket := initPacket.set 1 0xFF
    let initPacket := initPacket.set 2 0x0E
    let initPacket := initPacket.set 3 0x50
    let initPacket := initPacket.set 4 0x01
    let initPacket := initPacket.set 5 0x03
    let initPacket := initPacket.set 6 0x07
    let first : ControlTransfer :=
      { requestType := 0x21, request := 0x09, value := 0x0211, index := 0x01, data := initPacket }
    -- an error of the first transfer is logged as a warning only
    let _warning := ! usb.control 0 first
    let second : ControlTransfer :=
      { requestType := 0x21, request := 0x09, value := 0x0211, index := 0x01, data := payload }
    if ! usb.control 1 second then
      ([.openDevice vendorID productID, .control first, .control second], .error .controlData)
    else
      ([.openDevice vendorID productID, .control first, .control second], .ok ())

/-- The `switch mode` of `main` (gled.go, lines 55-68) up to the call of `sendRawPayload`
that ends each handler: the payload handed over, or the fatal error raised before. -/
def dispatch (args : List (List Char)) : Except Fatal (List Nat) :=
  let mode := flagArg args 0
  if mode = "solid".toList then setSolid args
  else if mode = "cycle".toList then setCycle args
  else if mode = "breathe".toList then setBreathe args
  else if mode = "intro".toList then setIntro args
  else .error .unknownMode

/-- Function `main` (gled.go, lines 33-69) on the positional arguments left by `flag.Parse`:
the selected handler runs and, unless it ends in a fatal error, calls `sendRawPayload`. -/
def main (usb : Usb) (args : List (List Char)) : List Event × Except Fatal Unit :=
  match dispatch args with
  | .error e => ([], .error e)
  | .ok payload => sendRawPayload usb payload

/-! ## Words used by the statements -/

/-- The spellings of `on` in every letter case. -/
def onSpellings : List (List Char) := ["on".toList, "On".toList, "oN".toList, "ON".toList]

/-- The spellings of `off` in every letter case. -/
def offSpellings : List (List Char) :=
  ["off".toList, "ofF".toList, "oFf".toList, "oFF".toList,
   "Off".toList, "OfF".toList, "OFf".toList, "OFF".toList]

/-- A hexadecimal digit: `0`-`9`, `A`-`F` or `a`-`f`. -/
def isHexDigit (c : Char) : Bool :=
  (48 ≤ c.toNat ∧ c.toNat ≤ 57) ∨ (65 ≤ c.toNat ∧ c.toNat ≤ 70) ∨ (97 ≤ c.toNat ∧ c.toNat ≤ 102)

/-- The value of a hexadecimal digit. -/
def hexValue (c : Char) : Nat :=
  if c.toNat ≤ 57 then c.toNat - 48 else if c.toNat ≤ 70 then c.toNat - 55 else c.toNat - 87

/-- A decimal digit: `0`-`9`. -/
def isDecDigit (c : Char) : Bool := 48 ≤ c.toNat ∧ c.toNat ≤ 57

/-- The base-10 value of the digits `cs` read after a prefix of value `n`. -/
def decFold : Nat → List Char → Nat
  | n, [] => n
  | n, c :: cs => decFold (n * 10 + (c.toNat - 48)) cs

/-- A base-10 integer string: an optional sign `+` or `-`, then one or more decimal digits. -/
def isBase10Int (s : List Char) : Bool :=
  match s with
  | [] => false
  | c :: rest =>
    if c = '+' ∨ c = '-' then rest ≠ [] ∧ rest.all isDecDigit
    else s.all isDecDigit

/-- The value of a base-10 integer string. -/
def base10Value (s : List Char) : Int :=
  match s with
  | [] => 0
  | c :: rest =>
    if c = '-' then -(decFold 0 rest : Int)
    else if c = '+' then (decFold 0 rest : Int)
    else (decFold 0 s : Int)

/-- An outcome that is a fatal error. -/
def failed {α : Type} (r : Except Fatal α) : Bool :=
  match r with
  | .ok _ => false
  | .error _ => true

/-- The argument errors of the command line: the first positional argument names no
subcommand, or a positional argument of the subcommand is missing (absent or empty), or one
of its arguments does not parse. -/
def argumentError (args : List (List Char)) : Prop :=
  (flagArg args 0 ≠ "solid".toList ∧ flagArg args 0 ≠ "cycle".toList ∧
    flagArg args 0 ≠ "breathe".toList ∧ flagArg args 0 ≠ "intro".toList) ∨
  (flagArg args 0 = "solid".toList ∧
    (flagArg args 1 = [] ∨ failed (parseHexColorToRGB (flagArg args 1)) = true)) ∨
  (flagArg args 0 = "cycle".toList ∧
    (flagArg args 1 = [] ∨ flagArg args 2 = [] ∨ failed (parseRate (flagArg args 1)) = true ∨
      failed (parseBrightness (flagArg args 2)) = true)) ∨
  (flagArg args 0 = "breathe".toList ∧
    (flagArg args 1 = [] ∨ flagArg args 2 = [] ∨ flagArg args 3 = [] ∨
      failed (parseHexColorToRGB (flagArg args 1)) = true ∨
      failed (parseRate (flagArg args 2)) = true ∨
      failed (parseBrightness (flagArg args 3)) = true)) ∨
  (flagArg args 0 = "intro".toList ∧
    (flagArg args 1 = [] ∨ failed (parseToggleByte (flagArg args 1)) = true))

/-- A command with its parsed parameters. -/
inductive Command where
  | solid (r g b : Nat)
  | cycle (rate brightness : Int)
  | breathe (r g b : Nat) (rate brightness : Int)
  | intro (toggle : Nat)
  deriving DecidableEq, Repr

/-- The command an argument vector stands for: the subcommand named by the first positional
argument with the values its parameters parse to; `none` when there is no such command. -/
def commandOf (args : List (List Char)) : Option Command :=
  let mode := flagArg args 0
  if mode = "solid".toList then
    match parseHexColorToRGB (flagArg args 1) with
    | .ok (r, g, b) => some (.solid r g b)
    | .error _ => none
  else if mode = "cycle".toList then
    match parseRate (flagArg args 1), parseBrightness (flagArg args 2) with
    | .ok rate, .ok brightness => some (.cycle rate brightness)
    | _, _ => none
  else if mode = "breathe".toList then
    match parseHexColorToRGB (flagArg args 1), parseRate (flagArg args 2),
        parseBrightness (flagArg args 3) with
    | .ok (r, g, b), .ok rate, .ok brightness => some (.breathe r g b rate brightness)
    | _, _, _ => none
  else if mode = "intro".toList then
    match parseToggleByte (flagArg args 1) with
    | .ok v => some (.intro v)
    | .error _ => none
  else none

/-- The fatal errors that are argument errors: every one but the three of `sendRawPayload`. -/
def isArgumentFatal (e : Fatal) : Bool :=
  match e with
  | .payloadLength => false
  | .openDevice => false
  | .controlData => false
  | _ => true

/-! ## Auxiliary lemmas: integer operations of the encoders -/

theorem land_255_of_nonneg (x : Int) (h : 0 ≤ x) : Int.land x 0xFF = x % 256 := by
  obtain ⟨n, rfl⟩ := Int.eq_ofNat_of_zero_le h
  have h1 : Int.land (n : Int) 0xFF = ((n &&& 255 : Nat) : Int) := rfl
  have h2 : n &&& 255 = n % 256 := Nat.and_pow_two_sub_one_eq_mod n 8
  rw [h1, h2]; rfl

theorem shiftRight_8 (x : Int) : Int.shiftRight x 8 = x / 256 := by
  have := Int.shiftRight_eq_div_pow x 8
  simpa using this

theorem byte_of_lt (x : Int) (h0 : 0 ≤ x) (h1 : x < 256) : byte x = x.toNat := by
  unfold byte; congr 1; omega

theorem byte_rate_hi (rate : Int) (h0 : 0 ≤ rate) (h1 : rate < 65536) :
    byte (Int.shiftRight rate 8) = rate.toNat >>> 8 := by
  rw [shiftRight_8, byte_of_lt _ (by omega) (by omega), Nat.shiftRight_eq_div_pow]
  omega

theorem byte_rate_lo (rate : Int) (h0 : 0 ≤ rate) :
    byte (Int.land rate 0xFF) = rate.toNat &&& 0xFF := by
  rw [land_255_of_nonneg _ h0, byte_of_lt _ (by omega) (by omega)]
  have : rate.toNat &&& 0xFF = rate.toNat % 256 := Nat.and_pow_two_sub_one_eq_mod _ 8
  rw [this]; omega

theorem byte_brightness (brightness : Int) (h0 : 0 ≤ brightness) :
    byte (brightness * 5) = (brightness.toNat * 5) % 256 := by
  unfold byte; omega

theorem parseRate_range {s : List Char} {rate : Int} (h : parseRate s = .ok rate) :
    100 ≤ rate ∧ rate ≤ 60000 := by
  unfold parseRate at h
  split at h
  · simp [defaultRate] at h; omega
  · split at h
    · simp at h
    · split at h
      · simp at h
      · simp at h; omega

theorem parseBrightness_range {s : List Char} {b : Int} (h : parseBrightness s = .ok b) :
    1 ≤ b ∧ b ≤ 100 := by
  unfold parseBrightness at h
  split at h
  · simp [defaultBrightness] at h; omega
  · split at h
    · simp at h
    · split at h
      · simp at h
      · simp at h; omega

theorem parseHexColorToRGB_ne_nil {s : List Char} {c : Nat × Nat × Nat}
    (h : parseHexColorToRGB s = .ok c) : s ≠ [] := by
  intro h0; rw [h0] at h; simp [parseHexColorToRGB] at h

/-! ## Auxiliary lemmas: scanning hexadecimal digits -/

theorem mem_hexadecimalDigits_of_isHexDigit {c : Char} (h : isHexDigit c = true) :
    c ∈ hexadecimalDigits := by
  have hc : c = Char.ofNat c.toNat := (Char.ofNat_toNat c).symm
  simp only [isHexDigit, decide_eq_true_eq, Bool.or_eq_true, Bool.and_eq_true] at h
  generalize c.toNat = n at h hc
  subst hc
  have hn : n ≤ 102 := by omega
  interval_cases n <;> first | (exfalso; omega) | decide

theorem hexDigit_facts : ∀ c ∈ hexadecimalDigits,
    isSpace c = false ∧ c ≠ '\n' ∧ c ≠ '\r' ∧ c ≠ '#' ∧ c.utf8Size = 1 ∧
    digitOf c = some (hexValue c) ∧ hexValue c < 16 := by
  decide

theorem SkipSpace_hexDigit {c : Char} (hc : c ∈ hexadecimalDigits) (w : Nat) (rest : List Char) :
    SkipSpace (w + 1) (c :: rest) = .ok (w + 1, c :: rest) := by
  obtain ⟨h1, h2, h3, -⟩ := hexDigit_facts c hc
  simp [SkipSpace, h1, h2, h3]

theorem ParseUint_hex1 {c : Char} (hc : c ∈ hexadecimalDigits) :
    ParseUint [c] 16 64 = (hexValue c, none) := by
  obtain ⟨-, -, -, -, -, h6, h7⟩ := hexDigit_facts c hc
  simp only [ParseUint, ParseUintLoop, h6, maxUint64, intSize]
  have e1 : ¬ (16 ≤ hexValue c) := by omega
  have e3 : hexValue c % 18446744073709551616 = hexValue c := by omega
  have e5 : ¬ (18446744073709551615 < hexValue c) := by omega
  simp [e1, e3, e5]

theorem ParseUint_hex2 {c d : Char} (hc : c ∈ hexadecimalDigits) (hd : d ∈ hexadecimalDigits) :
    ParseUint [c, d] 16 64 = (hexValue c * 16 + hexValue d, none) := by
  obtain ⟨-, -, -, -, -, h6, h7⟩ := hexDigit_facts c hc
  obtain ⟨-, -, -, -, -, k6, k7⟩ := hexDigit_facts d hd
  simp only [ParseUint, ParseUintLoop, h6, k6, maxUint64, intSize]
  have e1 : ¬ (16 ≤ hexValue c) := by omega
  have e2 : ¬ (16 ≤ hexValue d) := by omega
  have e3 : hexValue c % 18446744073709551616 = hexValue c := by omega
  have e4 : (hexValue c * 16 + hexValue d) % 18446744073709551616
      = hexValue c * 16 + hexValue d := by omega
  have e5 : ¬ (18446744073709551615 < hexValue c) := by omega
  have e6 : ¬ (1152921504606846976 ≤ hexValue c) := by omega
  have e7 : ¬ (18446744073709551615 < hexValue c * 16 + hexValue d) := by omega
  simp [e1, e2, e3, e4, e5, e6, e7]

theorem scanVerbX_hex2 {c d : Char} (hc : c ∈ hexadecimalDigits) (hd : d ∈ hexadecimalDigits)
    (rest : List Char) :
    scanVerbX 2 (c :: d :: rest) = .ok (hexValue c * 16 + hexValue d, rest) := by
  obtain ⟨-, -, -, -, -, -, h7⟩ := hexDigit_facts c hc
  obtain ⟨-, -, -, -, -, -, k7⟩ := hexDigit_facts d hd
  have hw : hugeWid = (2 ^ 30 - 1) + 1 := by decide
  have e : (hexValue c * 16 + hexValue d) % 256 = hexValue c * 16 + hexValue d := by omega
  simp only [scanVerbX, hw, SkipSpace_hexDigit hc, scanUint, scanNumber, acceptLoop, hc, hd,
    if_true, ParseUint_hex2 hc hd]
  simp [e]

theorem scanVerbX_hex1 {c : Char} (hc : c ∈ hexadecimalDigits) (rest : List Char) :
    scanVerbX 1 (c :: rest) = .ok (hexValue c, rest) := by
  obtain ⟨-, -, -, -, -, -, h7⟩ := hexDigit_facts c hc
  have hw : hugeWid = (2 ^ 30 - 1) + 1 := by decide
  have e : hexValue c % 256 = hexValue c := by omega
  simp only [scanVerbX, hw, SkipSpace_hexDigit hc, scanUint, scanNumber, acceptLoop, hc,
    if_true, ParseUint_hex1 hc]
  simp [e]

theorem hexToColor_six {c1 c2 c3 c4 c5 c6 : Char}
    (h1 : c1 ∈ hexadecimalDigits) (h2 : c2 ∈ hexadecimalDigits) (h3 : c3 ∈ hexadecimalDigits)
    (h4 : c4 ∈ hexadecimalDigits) (h5 : c5 ∈ hexadecimalDigits) (h6 : c6 ∈ hexadecimalDigits) :
    hexToColor ['#', c1, c2, c3, c4, c5, c6] =
      .ok { R := hexValue c1 * 16 + hexValue c2, G := hexValue c3 * 16 + hexValue c4,
            B := hexValue c5 * 16 + hexValue c6, A := 0xff } := by
  have u1 := (hexDigit_facts c1 h1).2.2.2.2.1
  have u2 := (hexDigit_facts c2 h2).2.2.2.2.1
  have u3 := (hexDigit_facts c3 h3).2.2.2.2.1
  have u4 := (hexDigit_facts c4 h4).2.2.2.2.1
  have u5 := (hexDigit_facts c5 h5).2.2.2.2.1
  have u6 := (hexDigit_facts c6 h6).2.2.2.2.1
  have hlen : len ['#', c1, c2, c3, c4, c5, c6] = 7 := by
    simp [len, u1, u2, u3, u4, u5, u6]
    rfl
  have hscan : SscanfHexColor 2 ['#', c1, c2, c3, c4, c5, c6] =
      .ok (hexValue c1 * 16 + hexValue c2, hexValue c3 * 16 + hexValue c4,
           hexValue c5 * 16 + hexValue c6) := by
    simp only [SscanfHexColor, ne_eq, not_true_eq_false, if_false,
      scanVerbX_hex2 h1 h2, scanVerbX_hex2 h3 h4, scanVerbX_hex2 h5 h6]
  simp only [hexToColor, hlen, if_true, hscan]

theorem hexToColor_three {a b c : Char}
    (ha : a ∈ hexadecimalDigits) (hb : b ∈ hexadecimalDigits) (hc : c ∈ hexadecimalDigits) :
    hexToColor ['#', a, b, c] =
      .ok { R := hexValue a * 17, G := hexValue b * 17, B := hexValue c * 17, A := 0xff } := by
  obtain ⟨-, -, -, -, u1, -, v1⟩ := hexDigit_facts a ha
  obtain ⟨-, -, -, -, u2, -, v2⟩ := hexDigit_facts b hb
  obtain ⟨-, -, -, -, u3, -, v3⟩ := hexDigit_facts c hc
  have hlen : len ['#', a, b, c] = 4 := by
    simp [len, u1, u2, u3]
    rfl
  have hscan : SscanfHexColor 1 ['#', a, b, c] = .ok (hexValue a, hexValue b, hexValue c) := by
    simp only [SscanfHexColor, ne_eq, not_true_eq_false, if_false,
      scanVerbX_hex1 ha, scanVerbX_hex1 hb, scanVerbX_hex1 hc]
  have e1 : hexValue a * 17 % 256 = hexValue a * 17 := by omega
  have e2 : hexValue b * 17 % 256 = hexValue b * 17 := by omega
  have e3 : hexValue c * 17 % 256 = hexValue c * 17 := by omega
  have h7 : ¬ (4 = 7) := by decide
  simp only [hexToColor, hlen, h7, if_false, if_true, hscan, e1, e2, e3]

theorem parseHexColorToRGB_hash (s : List Char) :
    parseHexColorToRGB ('#' :: s) =
      match hexToColor ('#' :: s) with
      | .error _ => .error .colorParse
      | .ok c => .ok (c.R, c.G, c.B) := by
  simp [parseHexColorToRGB]

theorem parseHexColorToRGB_no_hash (c : Char) (s : List Char) (h : c ≠ '#') :
    parseHexColorToRGB (c :: s) =
      match hexToColor ('#' :: c :: s) with
      | .error _ => .error .colorParse
      | .ok c => .ok (c.R, c.G, c.B) := by
  simp [parseHexColorToRGB, h]

/-! ## Auxiliary lemmas: `strconv.Atoi` -/

theorem decFold_nil (n : Nat) : decFold n [] = n := rfl

theorem decFold_cons (n : Nat) (c : Char) (cs : List Char) :
    decFold n (c :: cs) = decFold (n * 10 + (c.toNat - 48)) cs := rfl

theorem decFold_ge (n : Nat) (cs : List Char) : n ≤ decFold n cs := by
  induction cs generalizing n with
  | nil => exact Nat.le_refl _
  | cons c cs ih =>
    have h := ih (n * 10 + (c.toNat - 48))
    rw [decFold_cons]
    omega

theorem decFold_lt (n : Nat) (cs : List Char) (h : cs.all isDecDigit = true) :
    decFold n cs < (n + 1) * 10 ^ cs.length := by
  induction cs generalizing n with
  | nil =>
    rw [decFold_nil, List.length_nil, pow_zero, mul_one]
    omega
  | cons c cs ih =>
    simp only [List.all_cons, Bool.and_eq_true] at h
    obtain ⟨hc, hcs⟩ := h
    simp only [isDecDigit, decide_eq_true_eq, Bool.and_eq_true] at hc
    rw [decFold_cons, List.length_cons]
    have h1 := ih (n * 10 + (c.toNat - 48)) hcs
    have h2 : n * 10 + (c.toNat - 48) + 1 ≤ (n + 1) * 10 := by omega
    calc decFold (n * 10 + (c.toNat - 48)) cs
        < (n * 10 + (c.toNat - 48) + 1) * 10 ^ cs.length := h1
      _ ≤ ((n + 1) * 10) * 10 ^ cs.length := Nat.mul_le_mul_right _ h2
      _ = (n + 1) * 10 ^ (cs.length + 1) := by ring

theorem digitOf_of_isDecDigit {c : Char} (h : isDecDigit c = true) :
    digitOf c = some (c.toNat - 48) := by
  simp only [isDecDigit, decide_eq_true_eq, Bool.and_eq_true] at h
  have h1 : ¬ (128 ≤ c.toNat) := by omega
  simp [digitOf, h1, h.1, h.2]

theorem digitOf_of_not_isDecDigit {c : Char} (h : isDecDigit c = false) :
    digitOf c = none ∨ ∃ d, digitOf c = some d ∧ 10 ≤ d := by
  have h' : ¬ (48 ≤ c.toNat ∧ c.toNat ≤ 57) := by
    simpa [isDecDigit] using h
  unfold digitOf
  dsimp only
  by_cases h1 : 128 ≤ c.toNat
  · rw [if_pos h1]; exact Or.inl rfl
  · rw [if_neg h1, if_neg h']
    by_cases h2 : 97 ≤ lower c.toNat ∧ lower c.toNat ≤ 122
    · rw [if_pos h2]; exact Or.inr ⟨_, rfl, by omega⟩
    · rw [if_neg h2]; exact Or.inl rfl

/-- The loop of ParseUint in base 10 on a string of digits. -/
theorem ParseUintLoop_digits (n : Nat) (cs : List Char) (hn : n < 2 ^ 64)
    (h : cs.all isDecDigit = true) :
    ParseUintLoop 10 (maxUint64 / 10 + 1) (2 ^ 64 - 1) n cs =
      if decFold n cs < 2 ^ 64 then (decFold n cs, none) else (2 ^ 64 - 1, some .ErrRange) := by
  induction cs generalizing n with
  | nil =>
    rw [decFold_nil, if_pos hn]
    rfl
  | cons c cs ih =>
    simp only [List.all_cons, Bool.and_eq_true] at h
    obtain ⟨hc, hcs⟩ := h
    have hd := digitOf_of_isDecDigit hc
    simp only [isDecDigit, decide_eq_true_eq, Bool.and_eq_true] at hc
    have hge := decFold_ge (n * 10 + (c.toNat - 48)) cs
    rw [decFold_cons]
    simp only [ParseUintLoop, hd, maxUint64]
    have hb : ¬ (10 ≤ c.toNat - 48) := by omega
    rw [if_neg hb]
    by_cases h1 : (2 ^ 64 - 1) / 10 + 1 ≤ n
    · rw [if_pos h1, if_neg (by omega)]
    · rw [if_neg h1]
      by_cases h2 : n * 10 + (c.toNat - 48) < 2 ^ 64
      · have e : (n * 10 + (c.toNat - 48)) % 2 ^ 64 = n * 10 + (c.toNat - 48) :=
          Nat.mod_eq_of_lt h2
        simp only [e]
        rw [if_neg (by omega)]
        exact ih _ h2 hcs
      · have e : (n * 10 + (c.toNat - 48)) % 2 ^ 64 < n * 10 := by omega
        rw [if_pos (Or.inl e), if_neg (by omega)]

/-- The loop of ParseUint in base 10 on a string that has a non-digit: an error, and the
value next to a range error is the maximum. -/
theorem ParseUintLoop_not_digits (n : Nat) (cs : List Char)
    (h : cs.all isDecDigit = false) :
    ParseUintLoop 10 (maxUint64 / 10 + 1) (2 ^ 64 - 1) n cs = (0, some .ErrSyntax) ∨
    ParseUintLoop 10 (maxUint64 / 10 + 1) (2 ^ 64 - 1) n cs = (2 ^ 64 - 1, some .ErrRange) := by
  induction cs generalizing n with
  | nil => simp at h
  | cons c cs ih =>
    simp only [ParseUintLoop]
    cases hc : isDecDigit c with
    | false =>
      rcases digitOf_of_not_isDecDigit hc with hd | ⟨d, hd, hd10⟩
      · simp [hd]
      · simp [hd, hd10]
    | true =>
      have hcs : cs.all isDecDigit = false := by
        simpa [List.all_cons, hc] using h
      rw [digitOf_of_isDecDigit hc]
      simp only []
      split
      · exact Or.inl rfl
      · split
        · exact Or.inr rfl
        · split
          · exact Or.inr rfl
          · exact ih _ hcs

theorem ParseUint_digits (s : List Char) (hs : s ≠ []) (h : s.all isDecDigit = true) :
    ParseUint s 10 0 =
      if decFold 0 s < 2 ^ 64 then (decFold 0 s, none) else (2 ^ 64 - 1, some .ErrRange) := by
  have := ParseUintLoop_digits 0 s (by norm_num) h
  simp only [ParseUint, hs, if_false, intSize, if_true]
  exact this

theorem ParseUint_not_digits (s : List Char) (h : s = [] ∨ s.all isDecDigit = false) :
    ParseUint s 10 0 = (0, some .ErrSyntax) ∨ ParseUint s 10 0 = (2 ^ 64 - 1, some .ErrRange) := by
  rcases h with h | h
  · subst h; exact Or.inl rfl
  · have hs : s ≠ [] := by rintro rfl; simp at h
    have := ParseUintLoop_not_digits 0 s h
    simp only [ParseUint, hs, if_false, intSize, if_true]
    exact this

theorem int64_of_lt (u : Nat) (h : u < 2 ^ 63) : int64 (u : Int) = u := by
  unfold int64; omega

theorem int64_neg_of_le (u : Nat) (h : u ≤ 2 ^ 63) : int64 (-(int64 (u : Int))) = -(u : Int) := by
  unfold int64; omega

/-- What `ParseInt` makes of the result of `ParseUint` on the digits, `neg` telling whether
the sign was `-`. -/
theorem ParseInt_cons (c0 : Char) (rest : List Char) :
    ParseInt (c0 :: rest) 10 0 =
      match ParseUint (if c0 = '+' ∨ c0 = '-' then rest else c0 :: rest) 10 0 with
      | (_, some .ErrSyntax) => .error .ErrSyntax
      | (un, _) =>
        if ¬ (c0 = '-') ∧ 2 ^ 63 ≤ un then .error .ErrRange
        else if c0 = '-' ∧ 2 ^ 63 < un then .error .ErrRange
        else .ok (if c0 = '-' then int64 (-(int64 un)) else int64 un) := rfl

/-- The value of a sign and a digit string. -/
theorem ParseInt_post_digits (neg : Prop) [Decidable neg] (ds : List Char) (hds : ds ≠ [])
    (h : ds.all isDecDigit = true) :
    (match ParseUint ds 10 0 with
      | (_, some .ErrSyntax) => (.error .ErrSyntax : Except NumError Int)
      | (un, _) =>
        if ¬ neg ∧ 2 ^ 63 ≤ un then .error .ErrRange
        else if neg ∧ 2 ^ 63 < un then .error .ErrRange
        else .ok (if neg then int64 (-(int64 un)) else int64 un)) =
      if -(2 ^ 63 : Int) ≤ (if neg then -(decFold 0 ds : Int) else (decFold 0 ds : Int)) ∧
          (if neg then -(decFold 0 ds : Int) else (decFold 0 ds : Int)) < 2 ^ 63
      then .ok (if neg then -(decFold 0 ds : Int) else (decFold 0 ds : Int))
      else .error .ErrRange := by
  rw [ParseUint_digits ds hds h]
  generalize decFold 0 ds = v
  by_cases hlt : v < 2 ^ 64
  · rw [if_pos hlt]
    dsimp only
    by_cases hneg : neg
    · simp only [hneg, not_true_eq_false, false_and, if_false, true_and, if_true]
      by_cases h2 : 2 ^ 63 < v
      · rw [if_pos h2, if_neg (by omega)]
      · rw [if_neg h2, if_pos (by omega), int64_neg_of_le v (by omega)]
    · simp only [hneg, not_false_eq_true, true_and, false_and, if_false]
      by_cases h2 : 2 ^ 63 ≤ v
      · rw [if_pos h2, if_neg (by omega)]
      · rw [if_neg h2, if_pos (by omega), int64_of_lt v (by omega)]
  · rw [if_neg hlt]
    dsimp only
    by_cases hneg : neg
    · simp only [hneg, not_true_eq_false, false_and, if_false, true_and, if_true]
      rw [if_pos (by norm_num), if_neg (by omega)]
    · simp only [hneg, not_false_eq_true, true_and, false_and, if_false]
      rw [if_pos (by norm_num), if_neg (by omega)]

theorem ParseInt_post_not_digits (neg : Prop) [Decidable neg] (ds : List Char)
    (h : ds = [] ∨ ds.all isDecDigit = false) :
    ∃ e, (match ParseUint ds 10 0 with
      | (_, some .ErrSyntax) => (.error .ErrSyntax : Except NumError Int)
      | (un, _) =>
        if ¬ neg ∧ 2 ^ 63 ≤ un then .error .ErrRange
        else if neg ∧ 2 ^ 63 < un then .error .ErrRange
        else .ok (if neg then int64 (-(int64 un)) else int64 un)) = .error e := by
  rcases ParseUint_not_digits ds h with h1 | h1
  · rw [h1]; exact ⟨_, rfl⟩
  · rw [h1]
    dsimp only
    by_cases hneg : neg
    · simp only [hneg, not_true_eq_false, false_and, if_false, true_and]
      rw [if_pos (by norm_num)]; exact ⟨_, rfl⟩
    · simp only [hneg, not_false_eq_true, true_and]
      rw [if_pos (by norm_num)]; exact ⟨_, rfl⟩

/-- The digits of a string that starts with `c0`: what follows the sign, if there is one. -/
theorem isBase10Int_cons (c0 : Char) (rest : List Char) :
    isBase10Int (c0 :: rest) = true ↔
      (if c0 = '+' ∨ c0 = '-' then rest else c0 :: rest) ≠ [] ∧
      (if c0 = '+' ∨ c0 = '-' then rest else c0 :: rest).all isDecDigit = true := by
  unfold isBase10Int
  by_cases hs : c0 = '+' ∨ c0 = '-'
  · simp [hs]
  · simp [hs]

theorem base10Value_cons (c0 : Char) (rest : List Char) :
    base10Value (c0 :: rest) =
      if c0 = '-' then -(decFold 0 (if c0 = '+' ∨ c0 = '-' then rest else c0 :: rest) : Int)
      else (decFold 0 (if c0 = '+' ∨ c0 = '-' then rest else c0 :: rest) : Int) := by
  unfold base10Value
  by_cases h1 : c0 = '-'
  · simp [h1]
  · by_cases h2 : c0 = '+'
    · simp [h2]
    · simp [h1, h2]

theorem ParseInt_of_int (s : List Char) (h : isBase10Int s = true) :
    ParseInt s 10 0 =
      if -(2 ^ 63 : Int) ≤ base10Value s ∧ base10Value s < 2 ^ 63 then .ok (base10Value s)
      else .error .ErrRange := by
  cases s with
  | nil => simp [isBase10Int] at h
  | cons c0 rest =>
    obtain ⟨h1, h2⟩ := (isBase10Int_cons c0 rest).1 h
    rw [ParseInt_cons, base10Value_cons]
    exact ParseInt_post_digits (c0 = '-') _ h1 h2

theorem ParseInt_of_not_int (s : List Char) (h : isBase10Int s = false) :
    ∃ e, ParseInt s 10 0 = .error e := by
  cases s with
  | nil => exact ⟨_, rfl⟩
  | cons c0 rest =>
    rw [ParseInt_cons]
    apply ParseInt_post_not_digits
    by_contra hcon
    push_neg at hcon
    have : isBase10Int (c0 :: rest) = true :=
      (isBase10Int_cons c0 rest).2 ⟨hcon.1, by simpa using hcon.2⟩
    rw [h] at this
    cases this

theorem AtoiLoop_digits (n : Nat) (cs : List Char) (h : cs.all isDecDigit = true) :
    AtoiLoop (n : Int) cs = .ok (decFold n cs : Int) := by
  induction cs generalizing n with
  | nil => rfl
  | cons c cs ih =>
    simp only [List.all_cons, Bool.and_eq_true] at h
    obtain ⟨hc, hcs⟩ := h
    simp only [isDecDigit, decide_eq_true_eq, Bool.and_eq_true] at hc
    rw [decFold_cons, ← ih _ hcs]
    have e : (c.toNat + 256 - 48) % 256 = c.toNat - 48 := by omega
    simp only [AtoiLoop, e]
    rw [if_neg (by omega), if_neg (by omega)]
    push_cast
    rfl

theorem AtoiLoop_not_digits (n : Int) (cs : List Char) (h : cs.all isDecDigit = false) :
    AtoiLoop n cs = .error .ErrSyntax := by
  induction cs generalizing n with
  | nil => simp at h
  | cons c cs ih =>
    simp only [AtoiLoop]
    by_cases h1 : 128 ≤ c.toNat
    · rw [if_pos h1]
    · rw [if_neg h1]
      by_cases h2 : 9 < (c.toNat + 256 - 48) % 256
      · rw [if_pos h2]
      · rw [if_neg h2]
        apply ih
        have hc : isDecDigit c = true := by
          simp only [isDecDigit, decide_eq_true_eq, Bool.and_eq_true]
          omega
        simpa [List.all_cons, hc] using h

theorem length_le_len (s : List Char) : s.length ≤ len s := by
  induction s with
  | nil => simp [len]
  | cons c cs ih =>
    have := Char.utf8Size_pos c
    simp only [len, List.map_cons, List.sum_cons, List.length_cons] at *
    omega

theorem Atoi_fast (c0 : Char) (rest : List Char)
    (hf : 0 < len (c0 :: rest) ∧ len (c0 :: rest) < 19) :
    Atoi (c0 :: rest) =
      if (c0 = '+' ∨ c0 = '-') ∧ rest = [] then .error .ErrSyntax
      else
        match AtoiLoop 0 (if c0 = '+' ∨ c0 = '-' then rest else c0 :: rest) with
        | .error e => .error e
        | .ok n => .ok (if c0 = '-' then -n else n) := by
  have e : (c0 = '-' ∨ c0 = '+') ↔ (c0 = '+' ∨ c0 = '-') := or_comm
  unfold Atoi
  simp only [hf, and_self, if_true, e]
  by_cases hs : c0 = '+' ∨ c0 = '-'
  · simp only [hs, if_true, true_and]
    cases rest with
    | nil => simp
    | cons d ds => simp
  · simp only [hs, if_false, false_and]

theorem Atoi_of_int (s : List Char) (h : isBase10Int s = true) :
    Atoi s =
      if -(2 ^ 63 : Int) ≤ base10Value s ∧ base10Value s < 2 ^ 63 then .ok (base10Value s)
      else .error .ErrRange := by
  by_cases hf : 0 < len s ∧ len s < 19
  · cases s with
    | nil => simp [isBase10Int] at h
    | cons c0 rest =>
      obtain ⟨h1, h2⟩ := (isBase10Int_cons c0 rest).1 h
      rw [Atoi_fast c0 rest hf, base10Value_cons]
      have hlen : (if c0 = '+' ∨ c0 = '-' then rest else c0 :: rest).length ≤ 18 := by
        have := length_le_len (c0 :: rest)
        have h3 : (if c0 = '+' ∨ c0 = '-' then rest else c0 :: rest).length
            ≤ (c0 :: rest).length := by
          split <;> simp
        omega
      have hlt := decFold_lt 0 _ h2
      have hpow : 10 ^ (if c0 = '+' ∨ c0 = '-' then rest else c0 :: rest).length
          ≤ 10 ^ 18 := Nat.pow_le_pow_right (by norm_num) hlen
      have hv : decFold 0 (if c0 = '+' ∨ c0 = '-' then rest else c0 :: rest) < 10 ^ 18 := by
        omega
      have hloop := AtoiLoop_digits 0 _ h2
      rw [Nat.cast_zero] at hloop
      have hne : ¬ ((c0 = '+' ∨ c0 = '-') ∧ rest = []) := by
        rintro ⟨hs, hr⟩
        apply h1
        rw [if_pos hs, hr]
      rw [if_neg hne, hloop]
      generalize decFold 0 (if c0 = '+' ∨ c0 = '-' then rest else c0 :: rest) = v at hv
      dsimp only
      by_cases hm : c0 = '-'
      · rw [if_pos hm, if_pos (by omega)]
      · rw [if_neg hm, if_pos (by omega)]
  · have : Atoi s = ParseInt s 10 0 := by
      unfold Atoi
      simp only [hf, if_false]
    rw [this]
    exact ParseInt_of_int s h

theorem Atoi_of_not_int (s : List Char) (h : isBase10Int s = false) :
    ∃ e, Atoi s = .error e := by
  by_cases hf : 0 < len s ∧ len s < 19
  · cases s with
    | nil => simp [len] at hf
    | cons c0 rest =>
      rw [Atoi_fast c0 rest hf]
      by_cases hne : (c0 = '+' ∨ c0 = '-') ∧ rest = []
      · rw [if_pos hne]; exact ⟨_, rfl⟩
      · rw [if_neg hne]
        have hnd : (if c0 = '+' ∨ c0 = '-' then rest else c0 :: rest).all isDecDigit = false := by
          by_contra hcon
          have hall : (if c0 = '+' ∨ c0 = '-' then rest else c0 :: rest).all isDecDigit = true := by
            simpa using hcon
          have hnil : (if c0 = '+' ∨ c0 = '-' then rest else c0 :: rest) ≠ [] := by
            by_cases hs : c0 = '+' ∨ c0 = '-'
            · rw [if_pos hs]; intro hr; exact hne ⟨hs, hr⟩
            · rw [if_neg hs]; simp
          have := (isBase10Int_cons c0 rest).2 ⟨hnil, hall⟩
          rw [h] at this
          cases this
        rw [AtoiLoop_not_digits 0 _ hnd]
        exact ⟨_, rfl⟩
  · have : Atoi s = ParseInt s 10 0 := by
      unfold Atoi
      simp only [hf, if_false]
    rw [this]
    exact ParseInt_of_not_int s h

/-! ## Auxiliary lemmas: what a handler that hands over a payload has done -/

theorem setSolid_inv {args : List (List Char)} {p : List Nat} (h : setSolid args = .ok p) :
    ∃ r g b, parseHexColorToRGB (flagArg args 1) = .ok (r, g, b) ∧
      p = [0x11, 0xFF, 0x0E, 0x10, 0x00, 0x01, r, g, b, 0x02, 0, 0, 0, 0, 0, 0, 0x01, 0, 0, 0] := by
  unfold setSolid at h
  dsimp only at h
  split at h
  · cases h
  · split at h
    · cases h
    · refine ⟨_, _, _, by assumption, ?_⟩
      rw [← Except.ok.inj h]
      rfl

theorem setIntro_inv {args : List (List Char)} {p : List Nat} (h : setIntro args = .ok p) :
    ∃ v, parseToggleByte (flagArg args 1) = .ok v ∧
      p = [0x11, 0xFF, 0x0E, 0x5B, 0x00, 0x01, v, 0, 0, 0, 0, 0, 0, 0, 0, 0, 0, 0, 0, 0] := by
  unfold setIntro at h
  dsimp only at h
  split at h
  · cases h
  · split at h
    · cases h
    · refine ⟨_, by assumption, ?_⟩
      rw [← Except.ok.inj h]
      rfl

theorem setCycle_inv {args : List (List Char)} {p : List Nat} (h : setCycle args = .ok p) :
    ∃ rate brightness, flagArg args 1 ≠ [] ∧ flagArg args 2 ≠ [] ∧
      parseRate (flagArg args 1) = .ok rate ∧
      parseBrightness (flagArg args 2) = .ok brightness ∧
      p = [0x11, 0xFF, 0x0E, 0x10, 0x00, 0x02, 0x00, 0x00, 0x00, 0, 0,
           byte (Int.shiftRight rate 8), byte (Int.land rate 0xFF), byte (brightness * 5),
           0, 0, 0x01, 0, 0, 0] := by
  unfold setCycle at h
  dsimp only at h
  split at h
  · cases h
  · rename_i hne
    split at h
    · cases h
    · split at h
      · cases h
      · refine ⟨_, _, fun h0 => hne (Or.inl h0), fun h0 => hne (Or.inr h0),
          by assumption, by assumption, ?_⟩
        rw [← Except.ok.inj h]
        rfl

theorem setBreathe_inv {args : List (List Char)} {p : List Nat} (h : setBreathe args = .ok p) :
    ∃ r g b rate brightness, flagArg args 2 ≠ [] ∧ flagArg args 3 ≠ [] ∧
      parseHexColorToRGB (flagArg args 1) = .ok (r, g, b) ∧
      parseRate (flagArg args 2) = .ok rate ∧
      parseBrightness (flagArg args 3) = .ok brightness ∧
      p = [0x11, 0xFF, 0x0E, 0x10, 0x00, 0x03, r, g, b,
           byte (Int.shiftRight rate 8), byte (Int.land rate 0xFF), 0, byte (brightness * 5),
           0, 0, 0, 0x01, 0, 0, 0] := by
  unfold setBreathe at h
  dsimp only at h
  split at h
  · cases h
  · rename_i hne
    split at h
    · cases h
    · split at h
      · cases h
      · split at h
        · cases h
        · refine ⟨_, _, _, _, _, fun h0 => hne (Or.inr (Or.inl h0)),
            fun h0 => hne (Or.inr (Or.inr h0)), by assumption, by assumption, by assumption, ?_⟩
          rw [← Except.ok.inj h]
          rfl

/-! ## Auxiliary lemmas: `strings.ToLower` against `on` and `off` -/

theorem toLowerRune_o (c : Char) : toLowerRune c = 'o' ↔ c = 'o' ∨ c = 'O' := by
  constructor
  · intro h
    have hc : c = Char.ofNat c.toNat := (Char.ofNat_toNat c).symm
    unfold toLowerRune at h
    split at h
    · rename_i hu
      have h65 : 'A'.toNat = 65 := rfl
      have h90 : 'Z'.toNat = 90 := rfl
      rw [h65, h90] at hu
      generalize c.toNat = n at h hc hu
      subst hc
      obtain ⟨h1, h2⟩ := hu
      interval_cases n <;> revert h <;> decide
    · split at h
      · exact absurd h (by decide)
      · split at h
        · exact absurd h (by decide)
        · exact Or.inl h
  · rintro (rfl | rfl) <;> decide

theorem toLowerRune_n (c : Char) : toLowerRune c = 'n' ↔ c = 'n' ∨ c = 'N' := by
  constructor
  · intro h
    have hc : c = Char.ofNat c.toNat := (Char.ofNat_toNat c).symm
    unfold toLowerRune at h
    split at h
    · rename_i hu
      have h65 : 'A'.toNat = 65 := rfl
      have h90 : 'Z'.toNat = 90 := rfl
      rw [h65, h90] at hu
      generalize c.toNat = n at h hc hu
      subst hc
      obtain ⟨h1, h2⟩ := hu
      interval_cases n <;> revert h <;> decide
    · split at h
      · exact absurd h (by decide)
      · split at h
        · exact absurd h (by decide)
        · exact Or.inl h
  · rintro (rfl | rfl) <;> decide

theorem toLowerRune_f (c : Char) : toLowerRune c = 'f' ↔ c = 'f' ∨ c = 'F' := by
  constructor
  · intro h
    have hc : c = Char.ofNat c.toNat := (Char.ofNat_toNat c).symm
    unfold toLowerRune at h
    split at h
    · rename_i hu
      have h65 : 'A'.toNat = 65 := rfl
      have h90 : 'Z'.toNat = 90 := rfl
      rw [h65, h90] at hu
      generalize c.toNat = n at h hc hu
      subst hc
      obtain ⟨h1, h2⟩ := hu
      interval_cases n <;> revert h <;> decide
    · split at h
      · exact absurd h (by decide)
      · split at h
        · exact absurd h (by decide)
        · exact Or.inl h
  · rintro (rfl | rfl) <;> decide

theorem ToLower_eq_on (s : List Char) : ToLower s = "on".toList ↔ s ∈ onSpellings := by
  have e1 : "on".toList = ['o', 'n'] := rfl
  have e2 : onSpellings = [['o', 'n'], ['O', 'n'], ['o', 'N'], ['O', 'N']] := rfl
  rw [e1, e2]
  rcases s with _ | ⟨a, _ | ⟨b, _ | ⟨c, rest⟩⟩⟩
  · simp [ToLower]
  · simp [ToLower]
  · simp only [ToLower, List.map_cons, List.map_nil, List.cons.injEq, and_true,
      toLowerRune_o, toLowerRune_n, List.mem_cons, List.mem_singleton, List.not_mem_nil,
      or_false]
    tauto
  · simp [ToLower]

theorem ToLower_eq_off (s : List Char) : ToLower s = "off".toList ↔ s ∈ offSpellings := by
  have e1 : "off".toList = ['o', 'f', 'f'] := rfl
  have e2 : offSpellings =
      [['o', 'f', 'f'], ['o', 'f', 'F'], ['o', 'F', 'f'], ['o', 'F', 'F'],
       ['O', 'f', 'f'], ['O', 'f', 'F'], ['O', 'F', 'f'], ['O', 'F', 'F']] := rfl
  rw [e1, e2]
  rcases s with _ | ⟨a, _ | ⟨b, _ | ⟨c, _ | ⟨d, rest⟩⟩⟩⟩
  · simp [ToLower]
  · simp [ToLower]
  · simp [ToLower]
  · simp only [ToLower, List.map_cons, List.map_nil, List.cons.injEq, and_true,
      toLowerRune_o, toLowerRune_f, List.mem_cons, List.mem_singleton, List.not_mem_nil,
      or_false]
    tauto
  · simp [ToLower]

/-! ## Auxiliary lemmas: `dispatch` and the errors of the handlers -/

theorem failed_iff {α : Type} (r : Except Fatal α) : failed r = true ↔ ∃ e, r = .error e := by
  cases r with
  | error e => simp [failed]
  | ok a => simp [failed]

theorem dispatch_inv {args : List (List Char)} {p : List Nat} (h : dispatch args = .ok p) :
    (flagArg args 0 = "solid".toList ∧ setSolid args = .ok p) ∨
    (flagArg args 0 = "cycle".toList ∧ setCycle args = .ok p) ∨
    (flagArg args 0 = "breathe".toList ∧ setBreathe args = .ok p) ∨
    (flagArg args 0 = "intro".toList ∧ setIntro args = .ok p) := by
  unfold dispatch at h
  dsimp only at h
  split at h
  · exact Or.inl ⟨by assumption, h⟩
  · split at h
    · exact Or.inr (Or.inl ⟨by assumption, h⟩)
    · split at h
      · exact Or.inr (Or.inr (Or.inl ⟨by assumption, h⟩))
      · split at h
        · exact Or.inr (Or.inr (Or.inr ⟨by assumption, h⟩))
        · cases h

theorem dispatch_solid {args : List (List Char)} (h : flagArg args 0 = "solid".toList) :
    dispatch args = setSolid args := by
  unfold dispatch
  dsimp only
  rw [if_pos h]

theorem dispatch_cycle {args : List (List Char)} (h : flagArg args 0 = "cycle".toList) :
    dispatch args = setCycle args := by
  unfold dispatch
  dsimp only
  rw [h, if_neg (by decide), if_pos rfl]

theorem dispatch_breathe {args : List (List Char)} (h : flagArg args 0 = "breathe".toList) :
    dispatch args = setBreathe args := by
  unfold dispatch
  dsimp only
  rw [h, if_neg (by decide), if_neg (by decide), if_pos rfl]

theorem dispatch_intro {args : List (List Char)} (h : flagArg args 0 = "intro".toList) :
    dispatch args = setIntro args := by
  unfold dispatch
  dsimp only
  rw [h, if_neg (by decide), if_neg (by decide), if_neg (by decide), if_pos rfl]

theorem dispatch_unknown {args : List (List Char)}
    (h : flagArg args 0 ≠ "solid".toList ∧ flagArg args 0 ≠ "cycle".toList ∧
      flagArg args 0 ≠ "breathe".toList ∧ flagArg args 0 ≠ "intro".toList) :
    dispatch args = .error .unknownMode := by
  unfold dispatch
  dsimp only
  rw [if_neg h.1, if_neg h.2.1, if_neg h.2.2.1, if_neg h.2.2.2]

theorem setSolid_failed {args : List (List Char)}
    (h : flagArg args 1 = [] ∨ failed (parseHexColorToRGB (flagArg args 1)) = true) :
    failed (setSolid args) = true := by
  unfold setSolid
  dsimp only
  by_cases h0 : flagArg args 1 = []
  · rw [if_pos h0]; rfl
  · rw [if_neg h0]
    rcases h with h | h
    · exact absurd h h0
    · obtain ⟨e, he⟩ := (failed_iff _).1 h
      rw [he]; rfl

theorem setIntro_failed {args : List (List Char)}
    (h : flagArg args 1 = [] ∨ failed (parseToggleByte (flagArg args 1)) = true) :
    failed (setIntro args) = true := by
  unfold setIntro
  dsimp only
  by_cases h0 : flagArg args 1 = []
  · rw [if_pos h0]; rfl
  · rw [if_neg h0]
    rcases h with h | h
    · exact absurd h h0
    · obtain ⟨e, he⟩ := (failed_iff _).1 h
      rw [he]; rfl

theorem setCycle_missing {args : List (List Char)}
    (h : flagArg args 1 = [] ∨ flagArg args 2 = []) :
    setCycle args = .error .missingArgument := by
  unfold setCycle
  dsimp only
  rw [if_pos h]

theorem setBreathe_missing {args : List (List Char)}
    (h : flagArg args 1 = [] ∨ flagArg args 2 = [] ∨ flagArg args 3 = []) :
    setBreathe args = .error .missingArgument := by
  unfold setBreathe
  dsimp only
  rw [if_pos h]

theorem setCycle_failed {args : List (List Char)}
    (h : flagArg args 1 = [] ∨ flagArg args 2 = [] ∨
      failed (parseRate (flagArg args 1)) = true ∨
      failed (parseBrightness (flagArg args 2)) = true) :
    failed (setCycle args) = true := by
  by_cases h0 : flagArg args 1 = [] ∨ flagArg args 2 = []
  · rw [setCycle_missing h0]; rfl
  · unfold setCycle
    dsimp only
    rw [if_neg h0]
    cases hr : parseRate (flagArg args 1) with
    | error e => rfl
    | ok rate =>
      cases hb : parseBrightness (flagArg args 2) with
      | error e => rfl
      | ok b =>
        exfalso
        rcases h with h | h | h | h
        · exact h0 (Or.inl h)
        · exact h0 (Or.inr h)
        · rw [hr] at h; cases h
        · rw [hb] at h; cases h

theorem setBreathe_failed {args : List (List Char)}
    (h : flagArg args 1 = [] ∨ flagArg args 2 = [] ∨ flagArg args 3 = [] ∨
      failed (parseHexColorToRGB (flagArg args 1)) = true ∨
      failed (parseRate (flagArg args 2)) = true ∨
      failed (parseBrightness (flagArg args 3)) = true) :
    failed (setBreathe args) = true := by
  by_cases h0 : flagArg args 1 = [] ∨ flagArg args 2 = [] ∨ flagArg args 3 = []
  · rw [setBreathe_missing h0]; rfl
  · unfold setBreathe
    dsimp only
    rw [if_neg h0]
    cases hc : parseHexColorToRGB (flagArg args 1) with
    | error e => rfl
    | ok c =>
      obtain ⟨r, g, b⟩ := c
      cases hr : parseRate (flagArg args 2) with
      | error e => rfl
      | ok rate =>
        cases hb : parseBrightness (flagArg args 3) with
        | error e => rfl
        | ok b =>
          exfalso
          rcases h with h | h | h | h | h | h
          · exact h0 (Or.inl h)
          · exact h0 (Or.inr (Or.inl h))
          · exact h0 (Or.inr (Or.inr h))
          · rw [hc] at h; cases h
          · rw [hr] at h; cases h
          · rw [hb] at h; cases h

theorem handler_length {args : List (List Char)} {p : List Nat} (h : dispatch args = .ok p) :
    p.length = 20 := by
  rcases dispatch_inv h with ⟨-, h⟩ | ⟨-, h⟩ | ⟨-, h⟩ | ⟨-, h⟩
  · obtain ⟨_, _, _, -, rfl⟩ := setSolid_inv h; rfl
  · obtain ⟨_, _, -, -, -, -, rfl⟩ := setCycle_inv h; rfl
  · obtain ⟨_, _, _, _, _, -, -, -, -, -, rfl⟩ := setBreathe_inv h; rfl
  · obtain ⟨_, -, rfl⟩ := setIntro_inv h; rfl

theorem parseRate_error {s : List Char} {e : Fatal} (h : parseRate s = .error e) :
    e = .rateParse ∨ e = .rateOutOfRange := by
  unfold parseRate at h
  split at h
  · cases h
  · split at h
    · cases h; exact Or.inl rfl
    · split at h
      · cases h; exact Or.inr rfl
      · cases h

theorem parseBrightness_error {s : List Char} {e : Fatal} (h : parseBrightness s = .error e) :
    e = .brightnessParse ∨ e = .brightnessOutOfRange := by
  unfold parseBrightness at h
  split at h
  · cases h
  · split at h
    · cases h; exact Or.inl rfl
    · split at h
      · cases h; exact Or.inr rfl
      · cases h

theorem parseHexColorToRGB_error {s : List Char} {e : Fatal}
    (h : parseHexColorToRGB s = .error e) : e = .noColorArgument ∨ e = .colorParse := by
  unfold parseHexColorToRGB at h
  split at h
  · cases h; exact Or.inl rfl
  · dsimp only at h
    split at h
    · cases h; exact Or.inr rfl
    · cases h

theorem parseToggleByte_error {s : List Char} {e : Fatal} (h : parseToggleByte s = .error e) :
    e = .toggleParse := by
  unfold parseToggleByte at h
  split at h
  · cases h
  · split at h
    · cases h
    · cases h; rfl

theorem dispatch_error {args : List (List Char)} {e : Fatal} (h : dispatch args = .error e) :
    isArgumentFatal e = true := by
  unfold dispatch at h
  dsimp only at h
  split at h
  · unfold setSolid at h
    dsimp only at h
    split at h
    · cases h; rfl
    · split at h
      · cases h
        rename_i e he
        rcases parseHexColorToRGB_error he with rfl | rfl <;> rfl
      · cases h
  · split at h
    · unfold setCycle at h
      dsimp only at h
      split at h
      · cases h; rfl
      · split at h
        · cases h
          rename_i e he
          rcases parseRate_error he with rfl | rfl <;> rfl
        · split at h
          · cases h
            rename_i e he
            rcases parseBrightness_error he with rfl | rfl <;> rfl
          · cases h
    · split at h
      · unfold setBreathe at h
        dsimp only at h
        split at h
        · cases h; rfl
        · split at h
          · cases h
            rename_i e he
            rcases parseHexColorToRGB_error he with rfl | rfl <;> rfl
          · split at h
            · cases h
              rename_i e he
              rcases parseRate_error he with rfl | rfl <;> rfl
            · split at h
              · cases h
                rename_i e he
                rcases parseBrightness_error he with rfl | rfl <;> rfl
              · cases h
      · split at h
        · unfold setIntro at h
          dsimp only at h
          split at h
          · cases h; rfl
          · split at h
            · cases h
              rename_i e he
              rw [parseToggleByte_error he]; rfl
            · cases h
        · cases h; rfl

/-! ## Auxiliary lemmas: the encoders are injective -/

theorem rate_bytes_inj {r1 r2 : Int} (a1 : 100 ≤ r1) (a2 : r1 ≤ 60000) (b1 : 100 ≤ r2)
    (b2 : r2 ≤ 60000) (hhi : byte (Int.shiftRight r1 8) = byte (Int.shiftRight r2 8))
    (hlo : byte (Int.land r1 0xFF) = byte (Int.land r2 0xFF)) : r1 = r2 := by
  rw [shiftRight_8, shiftRight_8] at hhi
  rw [land_255_of_nonneg r1 (by omega), land_255_of_nonneg r2 (by omega)] at hlo
  unfold byte at hhi hlo
  omega

theorem brightness_byte_inj {b1 b2 : Int} (a1 : 1 ≤ b1) (a2 : b1 ≤ 100) (c1 : 1 ≤ b2)
    (c2 : b2 ≤ 100) (h : byte (b1 * 5) = byte (b2 * 5)) : b1 = b2 := by
  unfold byte at h
  have q1 : b1 * 5 / 256 = 0 ∨ b1 * 5 / 256 = 1 := by omega
  have q2 : b2 * 5 / 256 = 0 ∨ b2 * 5 / 256 = 1 := by omega
  rcases q1 with q1 | q1 <;> rcases q2 with q2 | q2 <;> omega

theorem commandOf_solid {args : List (List Char)} {r g b : Nat}
    (hm : flagArg args 0 = "solid".toList)
    (hc : parseHexColorToRGB (flagArg args 1) = .ok (r, g, b)) :
    commandOf args = some (.solid r g b) := by
  unfold commandOf
  dsimp only
  rw [if_pos hm, hc]

theorem commandOf_cycle {args : List (List Char)} {rate brightness : Int}
    (hm : flagArg args 0 = "cycle".toList)
    (hr : parseRate (flagArg args 1) = .ok rate)
    (hb : parseBrightness (flagArg args 2) = .ok brightness) :
    commandOf args = some (.cycle rate brightness) := by
  unfold commandOf
  dsimp only
  rw [hm, if_neg (by decide), if_pos rfl, hr, hb]

theorem commandOf_breathe {args : List (List Char)} {r g b : Nat} {rate brightness : Int}
    (hm : flagArg args 0 = "breathe".toList)
    (hc : parseHexColorToRGB (flagArg args 1) = .ok (r, g, b))
    (hr : parseRate (flagArg args 2) = .ok rate)
    (hb : parseBrightness (flagArg args 3) = .ok brightness) :
    commandOf args = some (.breathe r g b rate brightness) := by
  unfold commandOf
  dsimp only
  rw [hm, if_neg (by decide), if_neg (by decide), if_pos rfl, hc, hr, hb]

theorem commandOf_intro {args : List (List Char)} {v : Nat}
    (hm : flagArg args 0 = "intro".toList)
    (hv : parseToggleByte (flagArg args 1) = .ok v) :
    commandOf args = some (.intro v) := by
  unfold commandOf
  dsimp only
  rw [hm, if_neg (by decide), if_neg (by decide), if_neg (by decide), if_pos rfl, hv]


/-! ## Packet layout of the four handlers -/

/-- C1: whenever the colour argument of `solid` parses to (r, g, b), `setSolid` builds a payload
of exactly 20 bytes: 11 FF 0E 10 00 01 r g b 02 at offsets 0-9, 01 at offset 16, and 00 at
every other offset (10-15 and 17-19). -/
theorem setSolid_payload (args : List (List Char)) (r g b : Nat)
    (hc : parseHexColorToRGB (flagArg args 1) = .ok (r, g, b)) :
    ∃ payload, setSolid args = .ok payload ∧ payload.length = 20 ∧
      payload = [0x11, 0xFF, 0x0E, 0x10, 0x00, 0x01, r, g, b, 0x02,
                 0, 0, 0, 0, 0, 0, 0x01, 0, 0, 0] := by
  have hne := parseHexColorToRGB_ne_nil hc
  refine ⟨_, ?_, ?_, rfl⟩
  · simp [setSolid, hne, hc, make, packetSize, modeStatic, List.replicate]
  · rfl

/-- C1, at `solid FF0000`: the colour parses to (FF, 00, 00) and the payload is
11 FF 0E 10 00 01 FF 00 00 02 00 00 00 00 00 00 01 00 00 00. -/
theorem setSolid_payload_witness :
    parseHexColorToRGB (flagArg ["solid".toList, "FF0000".toList] 1) = .ok (0xFF, 0x00, 0x00) ∧
    ∃ payload, setSolid ["solid".toList, "FF0000".toList] = .ok payload ∧ payload.length = 20 ∧
      payload = [0x11, 0xFF, 0x0E, 0x10, 0x00, 0x01, 0xFF, 0x00, 0x00, 0x02,
                 0, 0, 0, 0, 0, 0, 0x01, 0, 0, 0] :=
  ⟨by decide, setSolid_payload ["solid".toList, "FF0000".toList] 0xFF 0x00 0x00 (by decide)⟩

/-- C2: whenever the arguments of `breathe` parse to colour (r, g, b), a rate (hence in
[100, 60000]) and a brightness (hence in [1, 100]), `setBreathe` builds a payload of exactly 20
bytes: 11 FF 0E 10 00 03 at offsets 0-5, r g b at 6-8, rate >> 8 at 9, rate & 0xFF at 10,
(brightness*5) mod 256 at 12, 01 at 16, and 00 at every other offset (11, 13-15, 17-19). -/
theorem setBreathe_payload (args : List (List Char)) (r g b : Nat) (rate brightness : Int)
    (hc : parseHexColorToRGB (flagArg args 1) = .ok (r, g, b))
    (hrs : flagArg args 2 ≠ []) (hr : parseRate (flagArg args 2) = .ok rate)
    (hbs : flagArg args 3 ≠ []) (hb : parseBrightness (flagArg args 3) = .ok brightness) :
    ∃ payload, setBreathe args = .ok payload ∧ payload.length = 20 ∧
      payload = [0x11, 0xFF, 0x0E, 0x10, 0x00, 0x03, r, g, b,
                 rate.toNat >>> 8, rate.toNat &&& 0xFF, 0, (brightness.toNat * 5) % 256,
                 0, 0, 0, 0x01, 0, 0, 0] := by
  have hne := parseHexColorToRGB_ne_nil hc
  obtain ⟨hr1, hr2⟩ := parseRate_range hr
  obtain ⟨hb1, hb2⟩ := parseBrightness_range hb
  have e1 := byte_rate_hi rate (by omega) (by omega)
  have e2 := byte_rate_lo rate (by omega)
  have e3 := byte_brightness brightness (by omega)
  refine ⟨_, ?_, ?_, rfl⟩
  · simp [setBreathe, hne, hrs, hbs, hc, hr, hb, make, packetSize, modeBreathe, List.replicate,
      e1, e2, e3]
  · rfl

/-- C2, at `breathe 00FF00 5000 50`: offsets 6-8 hold 00 FF 00, offset 9 holds 0x13, offset 10
holds 0x88, offset 12 holds 250 and offset 16 holds 0x01. -/
theorem setBreathe_payload_witness :
    (parseHexColorToRGB (flagArg ["breathe".toList, "00FF00".toList, "5000".toList, "50".toList] 1)
        = .ok (0x00, 0xFF, 0x00) ∧
      flagArg ["breathe".toList, "00FF00".toList, "5000".toList, "50".toList] 2 ≠ [] ∧
      parseRate (flagArg ["breathe".toList, "00FF00".toList, "5000".toList, "50".toList] 2)
        = .ok 5000 ∧
      flagArg ["breathe".toList, "00FF00".toList, "5000".toList, "50".toList] 3 ≠ [] ∧
      parseBrightness (flagArg ["breathe".toList, "00FF00".toList, "5000".toList, "50".toList] 3)
        = .ok 50) ∧
    ∃ payload,
      setBreathe ["breathe".toList, "00FF00".toList, "5000".toList, "50".toList] = .ok payload ∧
      payload.length = 20 ∧
      payload = [0x11, 0xFF, 0x0E, 0x10, 0x00, 0x03, 0x00, 0xFF, 0x00,
                 0x13, 0x88, 0, 250, 0, 0, 0, 0x01, 0, 0, 0] :=
  ⟨by decide,
   setBreathe_payload ["breathe".toList, "00FF00".toList, "5000".toList, "50".toList]
     0x00 0xFF 0x00 5000 50 (by decide) (by decide) (by decide) (by decide) (by decide)⟩

/-- C3: whenever the arguments of `cycle` parse to a rate (hence in [100, 60000]) and a
brightness (hence in [1, 100]), `setCycle` builds a payload of exactly 20 bytes:
11 FF 0E 10 00 02 at offsets 0-5, 00 00 00 at 6-8, rate >> 8 at 11, rate & 0xFF at 12,
(brightness*5) mod 256 at 13, 01 at 16, and 00 at every other offset (9, 10, 14, 15, 17-19). -/
theorem setCycle_payload (args : List (List Char)) (rate brightness : Int)
    (hrs : flagArg args 1 ≠ []) (hr : parseRate (flagArg args 1) = .ok rate)
    (hbs : flagArg args 2 ≠ []) (hb : parseBrightness (flagArg args 2) = .ok brightness) :
    ∃ payload, setCycle args = .ok payload ∧ payload.length = 20 ∧
      payload = [0x11, 0xFF, 0x0E, 0x10, 0x00, 0x02, 0x00, 0x00, 0x00, 0, 0,
                 rate.toNat >>> 8, rate.toNat &&& 0xFF, (brightness.toNat * 5) % 256,
                 0, 0, 0x01, 0, 0, 0] := by
  obtain ⟨hr1, hr2⟩ := parseRate_range hr
  obtain ⟨hb1, hb2⟩ := parseBrightness_range hb
  have e1 := byte_rate_hi rate (by omega) (by omega)
  have e2 := byte_rate_lo rate (by omega)
  have e3 := byte_brightness brightness (by omega)
  refine ⟨_, ?_, ?_, rfl⟩
  · simp [setCycle, hrs, hbs, hr, hb, make, packetSize, modeCycle, List.replicate, e1, e2, e3]
  · rfl

/-- C3, at `cycle 10000 100`: offset 11 holds 0x27, offset 12 holds 0x10, offset 13 holds 244
and offset 16 holds 0x01. -/
theorem setCycle_payload_witness :
    (flagArg ["cycle".toList, "10000".toList, "100".toList] 1 ≠ [] ∧
      parseRate (flagArg ["cycle".toList, "10000".toList, "100".toList] 1) = .ok 10000 ∧
      flagArg ["cycle".toList, "10000".toList, "100".toList] 2 ≠ [] ∧
      parseBrightness (flagArg ["cycle".toList, "10000".toList, "100".toList] 2) = .ok 100) ∧
    ∃ payload, setCycle ["cycle".toList, "10000".toList, "100".toList] = .ok payload ∧
      payload.length = 20 ∧
      payload = [0x11, 0xFF, 0x0E, 0x10, 0x00, 0x02, 0x00, 0x00, 0x00, 0, 0,
                 0x27, 0x10, 244, 0, 0, 0x01, 0, 0, 0] :=
  ⟨by decide,
   setCycle_payload ["cycle".toList, "10000".toList, "100".toList] 10000 100
     (by decide) (by decide) (by decide) (by decide)⟩

/-- C4: whenever the toggle argument of `intro` parses to the byte v, `setIntro` builds a
payload of exactly 20 bytes: 11 FF 0E 5B 00 01 at offsets 0-5, v at offset 6 and 00 at offsets
7-19; v is 0x01 when the argument is `on` in any letter case and 0x02 when it is `off` in any
letter case. -/
theorem setIntro_payload (args : List (List Char)) (v : Nat)
    (ht : parseToggleByte (flagArg args 1) = .ok v) :
    (∃ payload, setIntro args = .ok payload ∧ payload.length = 20 ∧
      payload = [0x11, 0xFF, 0x0E, 0x5B, 0x00, 0x01, v,
                 0, 0, 0, 0, 0, 0, 0, 0, 0, 0, 0, 0, 0]) ∧
    (flagArg args 1 ∈ onSpellings → v = 0x01) ∧
    (flagArg args 1 ∈ offSpellings → v = 0x02) := by
  have hne : flagArg args 1 ≠ [] := by
    intro h0
    have hnil : parseToggleByte [] = .error .toggleParse := by decide
    rw [h0, hnil] at ht
    cases ht
  refine ⟨⟨_, ?_, ?_, rfl⟩, ?_, ?_⟩
  · simp [setIntro, hne, ht, make, packetSize, List.replicate]
  · rfl
  · intro hm
    simp only [onSpellings, List.mem_cons, List.mem_singleton, List.not_mem_nil, or_false] at hm
    rcases hm with h | h | h | h <;> rw [h] at ht <;>
      exact (Except.ok.inj ht).symm
  · intro hm
    simp only [offSpellings, List.mem_cons, List.mem_singleton, List.not_mem_nil, or_false] at hm
    rcases hm with h | h | h | h | h | h | h | h <;> rw [h] at ht <;>
      exact (Except.ok.inj ht).symm

/-- C4, at `intro on`: offsets 0-6 hold 11 FF 0E 5B 00 01 01 and offsets 7-19 hold 00. -/
theorem setIntro_payload_witness :
    parseToggleByte (flagArg ["intro".toList, "on".toList] 1) = .ok 0x01 ∧
    ((∃ payload, setIntro ["intro".toList, "on".toList] = .ok payload ∧ payload.length = 20 ∧
      payload = [0x11, 0xFF, 0x0E, 0x5B, 0x00, 0x01, 0x01,
                 0, 0, 0, 0, 0, 0, 0, 0, 0, 0, 0, 0, 0]) ∧
    (flagArg ["intro".toList, "on".toList] 1 ∈ onSpellings → 0x01 = 0x01) ∧
    (flagArg ["intro".toList, "on".toList] 1 ∈ offSpellings → 0x01 = 0x02)) :=
  ⟨by decide, setIntro_payload ["intro".toList, "on".toList] 0x01 (by decide)⟩


/-! ## Colour parsing -/

/-- C5: for six hexadecimal digits c1..c6 (either case), parsing the string c1..c6 and parsing
`#`c1..c6 both succeed with R = the two-digit base-16 number c1c2, G = c3c4 and B = c5c6;
`hexToColor` on `#`c1..c6 returns that colour with alpha 0xff. -/
theorem parseHexColorToRGB_six (c1 c2 c3 c4 c5 c6 : Char)
    (h1 : isHexDigit c1 = true) (h2 : isHexDigit c2 = true) (h3 : isHexDigit c3 = true)
    (h4 : isHexDigit c4 = true) (h5 : isHexDigit c5 = true) (h6 : isHexDigit c6 = true) :
    parseHexColorToRGB [c1, c2, c3, c4, c5, c6] =
      .ok (hexValue c1 * 16 + hexValue c2, hexValue c3 * 16 + hexValue c4,
           hexValue c5 * 16 + hexValue c6) ∧
    parseHexColorToRGB ['#', c1, c2, c3, c4, c5, c6] =
      .ok (hexValue c1 * 16 + hexValue c2, hexValue c3 * 16 + hexValue c4,
           hexValue c5 * 16 + hexValue c6) ∧
    hexToColor ['#', c1, c2, c3, c4, c5, c6] =
      .ok { R := hexValue c1 * 16 + hexValue c2, G := hexValue c3 * 16 + hexValue c4,
            B := hexValue c5 * 16 + hexValue c6, A := 0xff } := by
  have m1 := mem_hexadecimalDigits_of_isHexDigit h1
  have hcol := hexToColor_six m1 (mem_hexadecimalDigits_of_isHexDigit h2)
    (mem_hexadecimalDigits_of_isHexDigit h3) (mem_hexadecimalDigits_of_isHexDigit h4)
    (mem_hexadecimalDigits_of_isHexDigit h5) (mem_hexadecimalDigits_of_isHexDigit h6)
  have hne : c1 ≠ '#' := (hexDigit_facts c1 m1).2.2.2.1
  refine ⟨?_, ?_, hcol⟩
  · rw [parseHexColorToRGB_no_hash c1 _ hne, hcol]
  · rw [parseHexColorToRGB_hash, hcol]

/-- C5, at `1a2B3c`: the channels are 0x1a, 0x2B and 0x3c. -/
theorem parseHexColorToRGB_six_witness :
    (isHexDigit '1' = true ∧ isHexDigit 'a' = true ∧ isHexDigit '2' = true ∧
      isHexDigit 'B' = true ∧ isHexDigit '3' = true ∧ isHexDigit 'c' = true) ∧
    (parseHexColorToRGB "1a2B3c".toList = .ok (0x1a, 0x2B, 0x3c) ∧
     parseHexColorToRGB "#1a2B3c".toList = .ok (0x1a, 0x2B, 0x3c) ∧
     hexToColor "#1a2B3c".toList = .ok { R := 0x1a, G := 0x2B, B := 0x3c, A := 0xff }) :=
  ⟨by decide,
   parseHexColorToRGB_six '1' 'a' '2' 'B' '3' 'c' (by decide) (by decide) (by decide)
     (by decide) (by decide) (by decide)⟩

/-- C6 (duplication law): for three hexadecimal digits a, b, c, parsing the string abc and
parsing `#`abc both succeed with each channel equal to its digit times 17, which is at most
255, and this is the result of parsing the six-digit string aabbcc. -/
theorem parseHexColorToRGB_three (a b c : Char)
    (ha : isHexDigit a = true) (hb : isHexDigit b = true) (hc : isHexDigit c = true) :
    parseHexColorToRGB [a, b, c] = .ok (hexValue a * 17, hexValue b * 17, hexValue c * 17) ∧
    parseHexColorToRGB ['#', a, b, c] =
      .ok (hexValue a * 17, hexValue b * 17, hexValue c * 17) ∧
    parseHexColorToRGB [a, b, c] = parseHexColorToRGB [a, a, b, b, c, c] ∧
    parseHexColorToRGB ['#', a, b, c] = parseHexColorToRGB ['#', a, a, b, b, c, c] ∧
    hexValue a * 17 ≤ 255 ∧ hexValue b * 17 ≤ 255 ∧ hexValue c * 17 ≤ 255 := by
  have ma := mem_hexadecimalDigits_of_isHexDigit ha
  have mb := mem_hexadecimalDigits_of_isHexDigit hb
  have mc := mem_hexadecimalDigits_of_isHexDigit hc
  have hcol := hexToColor_three ma mb mc
  have hne : a ≠ '#' := (hexDigit_facts a ma).2.2.2.1
  have va := (hexDigit_facts a ma).2.2.2.2.2.2
  have vb := (hexDigit_facts b mb).2.2.2.2.2.2
  have vc := (hexDigit_facts c mc).2.2.2.2.2.2
  have hsix := hexToColor_six ma ma mb mb mc mc
  have e1 : hexValue a * 16 + hexValue a = hexValue a * 17 := by omega
  have e2 : hexValue b * 16 + hexValue b = hexValue b * 17 := by omega
  have e3 : hexValue c * 16 + hexValue c = hexValue c * 17 := by omega
  rw [e1, e2, e3] at hsix
  have s1 : parseHexColorToRGB [a, a, b, b, c, c] =
      .ok (hexValue a * 17, hexValue b * 17, hexValue c * 17) := by
    rw [parseHexColorToRGB_no_hash a _ hne, hsix]
  have s2 : parseHexColorToRGB ['#', a, a, b, b, c, c] =
      .ok (hexValue a * 17, hexValue b * 17, hexValue c * 17) := by
    rw [parseHexColorToRGB_hash, hsix]
  have t1 : parseHexColorToRGB [a, b, c] =
      .ok (hexValue a * 17, hexValue b * 17, hexValue c * 17) := by
    rw [parseHexColorToRGB_no_hash a _ hne, hcol]
  have t2 : parseHexColorToRGB ['#', a, b, c] =
      .ok (hexValue a * 17, hexValue b * 17, hexValue c * 17) := by
    rw [parseHexColorToRGB_hash, hcol]
  refine ⟨t1, t2, ?_, ?_, by omega, by omega, by omega⟩
  · rw [t1, s1]
  · rw [t2, s2]

/-- C6, at `F0A`: R = 0xFF, G = 0x00, B = 0xAA, the same as for `FF00AA`. -/
theorem parseHexColorToRGB_three_witness :
    (isHexDigit 'F' = true ∧ isHexDigit '0' = true ∧ isHexDigit 'A' = true) ∧
    (parseHexColorToRGB "F0A".toList = .ok (0xFF, 0x00, 0xAA) ∧
     parseHexColorToRGB "#F0A".toList = .ok (0xFF, 0x00, 0xAA) ∧
     parseHexColorToRGB "F0A".toList = parseHexColorToRGB "FF00AA".toList ∧
     parseHexColorToRGB "#F0A".toList = parseHexColorToRGB "#FF00AA".toList ∧
     0xFF ≤ 255 ∧ 0x00 ≤ 255 ∧ 0xAA ≤ 255) :=
  ⟨by decide, parseHexColorToRGB_three 'F' '0' 'A' (by decide) (by decide) (by decide)⟩

/-- C7, evaluated: `12345z` has a character that is no hexadecimal digit and `solid 12345z` is
accepted with colour (0x12, 0x34, 0x05); the six characters ` 1 2 3` (digits separated by
spaces) are accepted with colour (1, 2, 3). The three-character form rejects the like:
`12z` and ` 12` fail. -/
theorem parseHexColorToRGB_accepts_non_hex :
    isHexDigit 'z' = false ∧ isHexDigit ' ' = false ∧
    parseHexColorToRGB "12345z".toList = .ok (0x12, 0x34, 0x05) ∧
    setSolid ["solid".toList, "12345z".toList] =
      .ok [0x11, 0xFF, 0x0E, 0x10, 0x00, 0x01, 0x12, 0x34, 0x05, 0x02,
           0, 0, 0, 0, 0, 0, 0x01, 0, 0, 0] ∧
    parseHexColorToRGB " 1 2 3".toList = .ok (0x01, 0x02, 0x03) ∧
    parseHexColorToRGB "12z".toList = .error .colorParse ∧
    parseHexColorToRGB " 12".toList = .error .colorParse := by
  decide

/-! ## Rate and brightness parsing -/

/-- C8: `parseRate s` returns n exactly when s is empty and n = 10000, or s is a base-10
integer string (optional sign, then decimal digits) of value n with 100 ≤ n ≤ 60000. -/
theorem parseRate_ok_iff (s : List Char) (n : Int) :
    parseRate s = .ok n ↔
      (s = [] ∧ n = 10000) ∨
      (isBase10Int s = true ∧ base10Value s = n ∧ 100 ≤ n ∧ n ≤ 60000) := by
  by_cases hs : s = []
  · subst hs
    simp [parseRate, defaultRate, isBase10Int]
    exact eq_comm
  · simp only [parseRate, hs, if_false, false_and, false_or]
    cases hi : isBase10Int s with
    | false =>
      obtain ⟨e, he⟩ := Atoi_of_not_int s hi
      simp [he]
    | true =>
      rw [Atoi_of_int s hi]
      by_cases hr : -(2 ^ 63 : Int) ≤ base10Value s ∧ base10Value s < 2 ^ 63
      · rw [if_pos hr]
        dsimp only
        by_cases ho : base10Value s < 100 ∨ base10Value s > 60000
        · rw [if_pos ho]
          constructor
          · intro h; cases h
          · rintro ⟨-, rfl, h1, h2⟩; omega
        · rw [if_neg ho]
          constructor
          · intro h
            have := Except.ok.inj h
            exact ⟨rfl, this, by omega, by omega⟩
          · rintro ⟨-, rfl, -, -⟩; rfl
      · rw [if_neg hr]
        dsimp only
        constructor
        · intro h; cases h
        · rintro ⟨-, rfl, h1, h2⟩
          exfalso; apply hr; constructor <;> omega

/-- C9: `parseBrightness s` returns n exactly when s is empty and n = 100, or s is a base-10
integer string (optional sign, then decimal digits) of value n with 1 ≤ n ≤ 100. -/
theorem parseBrightness_ok_iff (s : List Char) (n : Int) :
    parseBrightness s = .ok n ↔
      (s = [] ∧ n = 100) ∨
      (isBase10Int s = true ∧ base10Value s = n ∧ 1 ≤ n ∧ n ≤ 100) := by
  by_cases hs : s = []
  · subst hs
    simp [parseBrightness, defaultBrightness, isBase10Int]
    exact eq_comm
  · simp only [parseBrightness, hs, if_false, false_and, false_or]
    cases hi : isBase10Int s with
    | false =>
      obtain ⟨e, he⟩ := Atoi_of_not_int s hi
      simp [he]
    | true =>
      rw [Atoi_of_int s hi]
      by_cases hr : -(2 ^ 63 : Int) ≤ base10Value s ∧ base10Value s < 2 ^ 63
      · rw [if_pos hr]
        dsimp only
        by_cases ho : base10Value s < 1 ∨ base10Value s > 100
        · rw [if_pos ho]
          constructor
          · intro h; cases h
          · rintro ⟨-, rfl, h1, h2⟩; omega
        · rw [if_neg ho]
          constructor
          · intro h
            have := Except.ok.inj h
            exact ⟨rfl, this, by omega, by omega⟩
          · rintro ⟨-, rfl, -, -⟩; rfl
      · rw [if_neg hr]
        dsimp only
        constructor
        · intro h; cases h
        · rintro ⟨-, rfl, h1, h2⟩
          exfalso; apply hr; constructor <;> omega

/-- C10 as stated fails: `9223372036854775808` (2^63) is a base-10 integer string whose value
lies outside both intervals, and both parsers fail on it with the parse error, not with the
out-of-range error; the same holds for `-9223372036854775809`. -/
theorem parse_huge_not_outOfRange :
    isBase10Int "9223372036854775808".toList = true ∧
    base10Value "9223372036854775808".toList = 9223372036854775808 ∧
    parseRate "9223372036854775808".toList = .error .rateParse ∧
    parseRate "9223372036854775808".toList ≠ .error .rateOutOfRange ∧
    parseBrightness "9223372036854775808".toList = .error .brightnessParse ∧
    parseBrightness "9223372036854775808".toList ≠ .error .brightnessOutOfRange ∧
    isBase10Int "-9223372036854775809".toList = true ∧
    base10Value "-9223372036854775809".toList = -9223372036854775809 ∧
    parseRate "-9223372036854775809".toList = .error .rateParse ∧
    parseBrightness "-9223372036854775809".toList = .error .brightnessParse := by
  decide

/-- C10, amended: for a non-empty string s, (1) if s is a base-10 integer string whose value
fits a 64-bit signed integer and lies outside [100, 60000] (resp. [1, 100]), `parseRate`
(resp. `parseBrightness`) fails with the out-of-range error; (2) if s is a base-10 integer
string whose value does not fit a 64-bit signed integer, both fail with the parse error;
(3) if s is not a base-10 integer string, both fail with the parse error. -/
theorem parse_failure_kinds (s : List Char) (hs : s ≠ []) :
    (isBase10Int s = true → -(2 ^ 63 : Int) ≤ base10Value s → base10Value s < 2 ^ 63 →
      ((base10Value s < 100 ∨ 60000 < base10Value s) → parseRate s = .error .rateOutOfRange) ∧
      ((base10Value s < 1 ∨ 100 < base10Value s) →
        parseBrightness s = .error .brightnessOutOfRange)) ∧
    (isBase10Int s = true → (base10Value s < -(2 ^ 63 : Int) ∨ 2 ^ 63 ≤ base10Value s) →
      parseRate s = .error .rateParse ∧ parseBrightness s = .error .brightnessParse) ∧
    (isBase10Int s = false →
      parseRate s = .error .rateParse ∧ parseBrightness s = .error .brightnessParse) := by
  refine ⟨?_, ?_, ?_⟩
  · intro hi h1 h2
    have ha : Atoi s = .ok (base10Value s) := by
      rw [Atoi_of_int s hi, if_pos ⟨h1, h2⟩]
    constructor
    · intro ho
      simp only [parseRate, hs, if_false, ha]
      rw [if_pos (by omega)]
    · intro ho
      simp only [parseBrightness, hs, if_false, ha]
      rw [if_pos (by omega)]
  · intro hi ho
    have ha : Atoi s = .error .ErrRange := by
      rw [Atoi_of_int s hi, if_neg (by omega)]
    constructor
    · simp only [parseRate, hs, if_false, ha]
    · simp only [parseBrightness, hs, if_false, ha]
  · intro hi
    obtain ⟨e, he⟩ := Atoi_of_not_int s hi
    constructor
    · simp only [parseRate, hs, if_false, he]
    · simp only [parseBrightness, hs, if_false, he]

/-- C10, amended, at the inputs named by the claim: rate `99` and `60001`, brightness `0` and
`101` fail with the out-of-range error; `12x` fails with the parse error. -/
theorem parse_failure_kinds_witness :
    ("99".toList ≠ [] ∧ "60001".toList ≠ [] ∧ "0".toList ≠ [] ∧ "101".toList ≠ [] ∧
      "12x".toList ≠ []) ∧
    parseRate "99".toList = .error .rateOutOfRange ∧
    parseRate "60001".toList = .error .rateOutOfRange ∧
    parseBrightness "0".toList = .error .brightnessOutOfRange ∧
    parseBrightness "101".toList = .error .brightnessOutOfRange ∧
    (parseRate "12x".toList = .error .rateParse ∧
      parseBrightness "12x".toList = .error .brightnessParse) :=
  ⟨by decide,
   ((parse_failure_kinds "99".toList (by decide)).1 (by decide) (by decide) (by decide)).1
     (by decide),
   ((parse_failure_kinds "60001".toList (by decide)).1 (by decide) (by decide) (by decide)).1
     (by decide),
   ((parse_failure_kinds "0".toList (by decide)).1 (by decide) (by decide) (by decide)).2
     (by decide),
   ((parse_failure_kinds "101".toList (by decide)).1 (by decide) (by decide) (by decide)).2
     (by decide),
   (parse_failure_kinds "12x".toList (by decide)).2.2 (by decide)⟩


/-! ## Toggle parsing -/

/-- C11: `parseToggleByte s` returns 0x01 exactly when s is `on` in some letter case, returns
0x02 exactly when s is `off` in some letter case, and fails with the toggle parse error
exactly for every other string. -/
theorem parseToggleByte_spec (s : List Char) :
    (parseToggleByte s = .ok 0x01 ↔ s ∈ onSpellings) ∧
    (parseToggleByte s = .ok 0x02 ↔ s ∈ offSpellings) ∧
    (parseToggleByte s = .error .toggleParse ↔ s ∉ onSpellings ∧ s ∉ offSpellings) := by
  unfold parseToggleByte
  by_cases h1 : s ∈ onSpellings
  · have h2 : s ∉ offSpellings := by
      revert h1
      simp only [onSpellings, offSpellings, List.mem_cons, List.mem_singleton,
        List.not_mem_nil, or_false]
      rintro (rfl | rfl | rfl | rfl) <;> decide
    rw [if_pos ((ToLower_eq_on s).2 h1)]
    simp [h1, h2]
  · have t1 : ¬ (ToLower s = "on".toList) := fun h => h1 ((ToLower_eq_on s).1 h)
    rw [if_neg t1]
    by_cases h2 : s ∈ offSpellings
    · rw [if_pos ((ToLower_eq_off s).2 h2)]
      simp [h1, h2]
    · have t2 : ¬ (ToLower s = "off".toList) := fun h => h2 ((ToLower_eq_off s).1 h)
      rw [if_neg t2]
      simp [h1, h2]

/-! ## Encoding of rate and brightness -/

/-- C12 (round trip): for every rate r in [100, 60000], the bytes hi = byte(r >> 8) and
lo = byte(r & 0xFF) satisfy (hi << 8) | lo = r; these are the bytes `setCycle` writes at
offsets 11 and 12 and `setBreathe` writes at offsets 9 and 10. -/
theorem rate_bytes_roundtrip (r : Int) (h1 : 100 ≤ r) (h2 : r ≤ 60000) :
    (((byte (Int.shiftRight r 8) <<< 8) ||| byte (Int.land r 0xFF) : Nat) : Int) = r ∧
    (∀ args p, setCycle args = .ok p → parseRate (flagArg args 1) = .ok r →
      (((p.getD 11 0 <<< 8) ||| p.getD 12 0 : Nat) : Int) = r) ∧
    (∀ args p, setBreathe args = .ok p → parseRate (flagArg args 2) = .ok r →
      (((p.getD 9 0 <<< 8) ||| p.getD 10 0 : Nat) : Int) = r) := by
  have key : (((byte (Int.shiftRight r 8) <<< 8) ||| byte (Int.land r 0xFF) : Nat) : Int)
      = r := by
    rw [byte_rate_hi r (by omega) (by omega), byte_rate_lo r (by omega)]
    have e1 : r.toNat &&& 0xFF = r.toNat % 256 := Nat.and_pow_two_sub_one_eq_mod _ 8
    rw [e1, Nat.shiftRight_eq_div_pow, Nat.shiftLeft_eq]
    have e2 := @Nat.mul_add_lt_is_or 8 (r.toNat % 256) (by omega) (r.toNat / 2 ^ 8)
    rw [Nat.mul_comm, ← e2]
    omega
  refine ⟨key, ?_, ?_⟩
  · intro args p hp hr
    obtain ⟨rate, b, -, -, hr', -, rfl⟩ := setCycle_inv hp
    rw [hr] at hr'
    cases hr'
    exact key
  · intro args p hp hr
    obtain ⟨_, _, _, rate, b, -, -, -, hr', -, rfl⟩ := setBreathe_inv hp
    rw [hr] at hr'
    cases hr'
    exact key

/-- C12, at rate 5000 = 0x1388: hi = 0x13, lo = 0x88 and (0x13 << 8) | 0x88 = 5000. -/
theorem rate_bytes_roundtrip_witness :
    ((100 : Int) ≤ 5000 ∧ (5000 : Int) ≤ 60000) ∧
    byte (Int.shiftRight 5000 8) = 0x13 ∧ byte (Int.land 5000 0xFF) = 0x88 ∧
    (((byte (Int.shiftRight 5000 8) <<< 8) ||| byte (Int.land 5000 0xFF) : Nat) : Int)
      = 5000 :=
  ⟨by decide, by decide, by decide,
   (rate_bytes_roundtrip 5000 (by decide) (by decide)).1⟩


/-- C13: for every brightness b in [1, 100] the device brightness byte is (b*5) mod 256; it is the
byte `setCycle` writes at offset 13 and `setBreathe` writes at offset 12. -/
theorem deviceBrightness_mod_256 (b : Int) (h1 : 1 ≤ b) (h2 : b ≤ 100) :
    byte (b * 5) = (b.toNat * 5) % 256 ∧
    (∀ args p, setCycle args = .ok p → parseBrightness (flagArg args 2) = .ok b →
      p.getD 13 0 = (b.toNat * 5) % 256) ∧
    (∀ args p, setBreathe args = .ok p → parseBrightness (flagArg args 3) = .ok b →
      p.getD 12 0 = (b.toNat * 5) % 256) := by
  have key := byte_brightness b (by omega)
  refine ⟨key, ?_, ?_⟩
  · intro args p hp hb
    obtain ⟨rate, b', -, -, -, hb', rfl⟩ := setCycle_inv hp
    rw [hb] at hb'
    cases hb'
    exact key
  · intro args p hp hb
    obtain ⟨_, _, _, rate, b', -, -, -, -, hb', rfl⟩ := setBreathe_inv hp
    rw [hb] at hb'
    cases hb'
    exact key

/-- C13, at b = 100, 1 and 51: the bytes are 244, 5 and 255. -/
theorem deviceBrightness_mod_256_witness :
    (((1 : Int) ≤ 100 ∧ (100 : Int) ≤ 100) ∧ byte (100 * 5) = 244) ∧
    (((1 : Int) ≤ 1 ∧ (1 : Int) ≤ 100) ∧ byte (1 * 5) = 5) ∧
    (((1 : Int) ≤ 51 ∧ (51 : Int) ≤ 100) ∧ byte (51 * 5) = 255) :=
  ⟨⟨by decide, (deviceBrightness_mod_256 100 (by decide) (by decide)).1⟩,
   ⟨by decide, (deviceBrightness_mod_256 1 (by decide) (by decide)).1⟩,
   ⟨by decide, (deviceBrightness_mod_256 51 (by decide) (by decide)).1⟩⟩

/-- C17 as stated fails: brightness 100 is in [1, 100], 100*5 = 500, and the byte written is
244; `cycle 10000 100` carries 244 at offset 13. The same holds from 52 on: 52*5 = 260 is
written as 4. -/
theorem brightness_byte_truncates :
    byte (100 * 5) = 244 ∧ (100 * 5 : Int) = 500 ∧
    byte (52 * 5) = 4 ∧ (52 * 5 : Int) = 260 ∧
    parseBrightness "100".toList = .ok 100 ∧
    (setCycle ["cycle".toList, "10000".toList, "100".toList]).map (fun p => p.getD 13 0)
      = .ok 244 := by
  decide

/-- C17, amended: for every brightness b in [1, 51] truncating b*5 to one byte does not change
it, the byte written has the value b*5; for every b in [52, 100] the byte written is
b*5 - 256, which lies in [4, 244] and differs from b*5. -/
theorem brightness_byte_exact (b : Int) (h1 : 1 ≤ b) (h2 : b ≤ 100) :
    (b ≤ 51 → (byte (b * 5) : Int) = b * 5) ∧
    (52 ≤ b → (byte (b * 5) : Int) = b * 5 - 256 ∧ 4 ≤ byte (b * 5) ∧ byte (b * 5) ≤ 244) ∧
    (∀ args p, setCycle args = .ok p → parseBrightness (flagArg args 2) = .ok b →
      p.getD 13 0 = byte (b * 5)) ∧
    (∀ args p, setBreathe args = .ok p → parseBrightness (flagArg args 3) = .ok b →
      p.getD 12 0 = byte (b * 5)) := by
  refine ⟨?_, ?_, ?_, ?_⟩
  · intro h; unfold byte; omega
  · intro h
    have hq : b * 5 / 256 = 1 := by omega
    unfold byte
    omega
  · intro args p hp hb
    obtain ⟨rate, b', -, -, -, hb', rfl⟩ := setCycle_inv hp
    rw [hb] at hb'
    cases hb'
    rfl
  · intro args p hp hb
    obtain ⟨_, _, _, rate, b', -, -, -, -, hb', rfl⟩ := setBreathe_inv hp
    rw [hb] at hb'
    cases hb'
    rfl

/-- C17, amended, at b = 51 (byte 255 = 51*5) and b = 52 (byte 4 = 52*5 - 256). -/
theorem brightness_byte_exact_witness :
    (((1 : Int) ≤ 51 ∧ (51 : Int) ≤ 100 ∧ (51 : Int) ≤ 51) ∧ (byte (51 * 5) : Int) = 51 * 5) ∧
    (((1 : Int) ≤ 52 ∧ (52 : Int) ≤ 100 ∧ (52 : Int) ≤ 52) ∧
      ((byte (52 * 5) : Int) = 52 * 5 - 256 ∧ 4 ≤ byte (52 * 5) ∧ byte (52 * 5) ≤ 244)) :=
  ⟨⟨by decide, (brightness_byte_exact 51 (by decide) (by decide)).1 (by decide)⟩,
   ⟨by decide, (brightness_byte_exact 52 (by decide) (by decide)).2.1 (by decide)⟩⟩

/-- C18: for every brightness b in [1, 100] the device brightness byte byte(b*5) is not 0; so
the byte `setCycle` writes at offset 13 and the byte `setBreathe` writes at offset 12 are
never 0. -/
theorem brightness_byte_ne_zero (b : Int) (h1 : 1 ≤ b) (h2 : b ≤ 100) :
    byte (b * 5) ≠ 0 ∧
    (∀ args p, setCycle args = .ok p → parseBrightness (flagArg args 2) = .ok b →
      p.getD 13 0 ≠ 0) ∧
    (∀ args p, setBreathe args = .ok p → parseBrightness (flagArg args 3) = .ok b →
      p.getD 12 0 ≠ 0) := by
  have key : byte (b * 5) ≠ 0 := by unfold byte; omega
  refine ⟨key, ?_, ?_⟩
  · intro args p hp hb
    obtain ⟨rate, b', -, -, -, hb', rfl⟩ := setCycle_inv hp
    rw [hb] at hb'
    cases hb'
    exact key
  · intro args p hp hb
    obtain ⟨_, _, _, rate, b', -, -, -, -, hb', rfl⟩ := setBreathe_inv hp
    rw [hb] at hb'
    cases hb'
    exact key

/-- C18, at b = 1 (byte 5) and b = 100 (byte 244). -/
theorem brightness_byte_ne_zero_witness :
    (((1 : Int) ≤ 1 ∧ (1 : Int) ≤ 100) ∧ byte (1 * 5) ≠ 0) ∧
    (((1 : Int) ≤ 100 ∧ (100 : Int) ≤ 100) ∧ byte (100 * 5) ≠ 0) :=
  ⟨⟨by decide, (brightness_byte_ne_zero 1 (by decide) (by decide)).1⟩,
   ⟨by decide, (brightness_byte_ne_zero 100 (by decide) (by decide)).1⟩⟩

/-! ## The transport and the dispatcher -/

/-- C14: for every 20-byte payload and every device that opens, `sendRawPayload` opens the
device and issues exactly two control transfers, in this order: the enable packet
11 FF 0E 50 01 03 07 followed by thirteen 00 bytes, then the given payload unchanged, both
with requestType = 0x21, request = 0x09, value = 0x0211, index = 0x01. The two transfers are
issued whatever the outcome of the first, and the call fails (with the control-data error)
exactly when the second transfer fails. -/
theorem sendRawPayload_transfers (usb : Usb) (payload : List Nat)
    (hlen : payload.length = 20) (hopen : usb.openDevice vendorID productID = true) :
    (sendRawPayload usb payload).1 =
      [.openDevice 0x046d 0xc092,
       .control { requestType := 0x21, request := 0x09, value := 0x0211, index := 0x01,
                  data := [0x11, 0xFF, 0x0E, 0x50, 0x01, 0x03, 0x07,
                           0, 0, 0, 0, 0, 0, 0, 0, 0, 0, 0, 0, 0] },
       .control { requestType := 0x21, request := 0x09, value := 0x0211, index := 0x01,
                  data := payload }] ∧
    ((sendRawPayload usb payload).2 = .error .controlData ↔
      usb.control 1 { requestType := 0x21, request := 0x09, value := 0x0211, index := 0x01,
                      data := payload } = false) ∧
    ((sendRawPayload usb payload).2 = .ok () ↔
      usb.control 1 { requestType := 0x21, request := 0x09, value := 0x0211, index := 0x01,
                      data := payload } = true) := by
  unfold sendRawPayload
  have h1 : ¬ (payload.length ≠ packetSize) := by
    rw [hlen]; decide
  rw [if_neg h1, hopen]
  dsimp only
  cases hc : usb.control 1 (ControlTransfer.mk 0x21 0x09 0x0211 0x01 payload) with
  | false => exact ⟨rfl, by simp, by simp⟩
  | true => exact ⟨rfl, by simp, by simp⟩

/-- C14, at a device whose first transfer fails and whose second succeeds, with the payload of
`solid FF0000`: the length is 20, the device opens, both transfers are issued and the call
returns normally. -/
theorem sendRawPayload_transfers_witness :
    ([0x11, 0xFF, 0x0E, 0x10, 0x00, 0x01, 0xFF, 0x00, 0x00, 0x02,
      0, 0, 0, 0, 0, 0, 0x01, 0, 0, 0].length = 20 ∧
     ({ openDevice := fun _ _ => true, control := fun k _ => k != 0 } : Usb).openDevice
       vendorID productID = true) ∧
    (sendRawPayload { openDevice := fun _ _ => true, control := fun k _ => k != 0 }
      [0x11, 0xFF, 0x0E, 0x10, 0x00, 0x01, 0xFF, 0x00, 0x00, 0x02,
       0, 0, 0, 0, 0, 0, 0x01, 0, 0, 0]).1 =
      [.openDevice 0x046d 0xc092,
       .control { requestType := 0x21, request := 0x09, value := 0x0211, index := 0x01,
                  data := [0x11, 0xFF, 0x0E, 0x50, 0x01, 0x03, 0x07,
                           0, 0, 0, 0, 0, 0, 0, 0, 0, 0, 0, 0, 0] },
       .control { requestType := 0x21, request := 0x09, value := 0x0211, index := 0x01,
                  data := [0x11, 0xFF, 0x0E, 0x10, 0x00, 0x01, 0xFF, 0x00, 0x00, 0x02,
                           0, 0, 0, 0, 0, 0, 0x01, 0, 0, 0] }] :=
  ⟨⟨rfl, rfl⟩,
   (sendRawPayload_transfers { openDevice := fun _ _ => true, control := fun k _ => k != 0 }
     [0x11, 0xFF, 0x0E, 0x10, 0x00, 0x01, 0xFF, 0x00, 0x00, 0x02,
      0, 0, 0, 0, 0, 0, 0x01, 0, 0, 0] rfl rfl).1⟩

/-- C15 (no I/O on argument error): when the first positional argument names no subcommand,
or a positional argument of the subcommand is missing, or one of its arguments does not
parse, `main` ends in a fatal error and has neither opened the device nor issued a control
transfer. -/
theorem main_argumentError_no_events (usb : Usb) (args : List (List Char))
    (h : argumentError args) :
    (main usb args).1 = [] ∧ failed (main usb args).2 = true := by
  have hd : failed (dispatch args) = true := by
    rcases h with h | ⟨hm, h⟩ | ⟨hm, h⟩ | ⟨hm, h⟩ | ⟨hm, h⟩
    · rw [dispatch_unknown h]; rfl
    · rw [dispatch_solid hm]; exact setSolid_failed h
    · rw [dispatch_cycle hm]; exact setCycle_failed h
    · rw [dispatch_breathe hm]; exact setBreathe_failed h
    · rw [dispatch_intro hm]; exact setIntro_failed h
  obtain ⟨e, he⟩ := (failed_iff _).1 hd
  unfold main
  rw [he]
  exact ⟨rfl, rfl⟩

/-- C15, at `breathe FF0000 5000 abc`: colour and rate parse, the brightness does not, and
`main` stops without any device event. -/
theorem main_argumentError_no_events_witness :
    argumentError ["breathe".toList, "FF0000".toList, "5000".toList, "abc".toList] ∧
    (parseHexColorToRGB "FF0000".toList = .ok (0xFF, 0x00, 0x00) ∧
      parseRate "5000".toList = .ok 5000) ∧
    ((main { openDevice := fun _ _ => true, control := fun _ _ => true }
        ["breathe".toList, "FF0000".toList, "5000".toList, "abc".toList]).1 = [] ∧
     failed (main { openDevice := fun _ _ => true, control := fun _ _ => true }
        ["breathe".toList, "FF0000".toList, "5000".toList, "abc".toList]).2 = true) :=
  ⟨Or.inr (Or.inr (Or.inr (Or.inl ⟨by decide,
      Or.inr (Or.inr (Or.inr (Or.inr (Or.inr (by decide)))))⟩))),
   by decide,
   main_argumentError_no_events { openDevice := fun _ _ => true, control := fun _ _ => true }
     ["breathe".toList, "FF0000".toList, "5000".toList, "abc".toList]
     (Or.inr (Or.inr (Or.inr (Or.inl ⟨by decide,
      Or.inr (Or.inr (Or.inr (Or.inr (Or.inr (by decide)))))⟩))))⟩

/-- C16, evaluated: the parsers implement the documented defaults (`parseRate` returns 10000
and `parseBrightness` returns 100 for the empty string), but with the rate or the brightness
omitted (absent or empty) `cycle` and `breathe` never reach them: the handler stops with the
missing-argument error, no payload is built and `main` performs no device event. -/
theorem omitted_argument_is_fatal :
    parseRate [] = .ok 10000 ∧ parseBrightness [] = .ok 100 ∧
    setCycle ["cycle".toList] = .error .missingArgument ∧
    setCycle ["cycle".toList, "5000".toList] = .error .missingArgument ∧
    setCycle ["cycle".toList, [], "50".toList] = .error .missingArgument ∧
    setCycle ["cycle".toList, "5000".toList, []] = .error .missingArgument ∧
    setBreathe ["breathe".toList, "FF0000".toList] = .error .missingArgument ∧
    setBreathe ["breathe".toList, "FF0000".toList, "5000".toList] = .error .missingArgument ∧
    setBreathe ["breathe".toList, "FF0000".toList, [], "50".toList]
      = .error .missingArgument ∧
    main { openDevice := fun _ _ => true, control := fun _ _ => true } ["cycle".toList]
      = ([], .error .missingArgument) ∧
    main { openDevice := fun _ _ => true, control := fun _ _ => true }
      ["breathe".toList, "FF0000".toList, "5000".toList] = ([], .error .missingArgument) := by
  refine ⟨rfl, rfl, by decide, by decide, by decide, by decide, by decide, by decide,
    by decide, rfl, rfl⟩

/-- C20: every payload a handler hands to `sendRawPayload` has length exactly 20; so for every
argument vector and every device the length check of `sendRawPayload` passes and `main`
never ends in the payload-length error. -/
theorem payload_length_check_unreachable (usb : Usb) (args : List (List Char)) :
    (∀ p, dispatch args = .ok p →
      p.length = 20 ∧ main usb args = sendRawPayload usb p ∧
      (sendRawPayload usb p).2 ≠ .error .payloadLength) ∧
    (main usb args).2 ≠ .error .payloadLength := by
  have hsend : ∀ p : List Nat, p.length = 20 →
      (sendRawPayload usb p).2 ≠ .error .payloadLength := by
    intro p hp
    unfold sendRawPayload
    have h1 : ¬ (p.length ≠ packetSize) := by
      rw [hp]; decide
    rw [if_neg h1]
    dsimp only
    split
    · simp
    · split
      · simp
      · simp
  constructor
  · intro p hp
    have hl := handler_length hp
    refine ⟨hl, ?_, hsend p hl⟩
    unfold main
    rw [hp]
  · unfold main
    cases hd : dispatch args with
    | error e =>
      dsimp only
      intro he
      have := dispatch_error hd
      cases he
      cases this
    | ok p =>
      exact hsend p (handler_length hd)

/-! ## The payload determines the command -/

/-- C19 (injectivity): when two argument vectors both pass parsing and their handlers hand
over the same 20-byte payload, they stand for the same command: the same subcommand among
solid, cycle, breathe and intro with the same colour, rate, brightness and toggle value. In
particular two different brightness percentages in [1, 100] never give the same device
byte. -/
theorem payload_injective (a1 a2 : List (List Char)) (p : List Nat)
    (h1 : dispatch a1 = .ok p) (h2 : dispatch a2 = .ok p) :
    (∃ c, commandOf a1 = some c ∧ commandOf a2 = some c) ∧
    (∀ b b' : Int, 1 ≤ b → b ≤ 100 → 1 ≤ b' → b' ≤ 100 → b ≠ b' →
      byte (b * 5) ≠ byte (b' * 5)) := by
  refine ⟨?_, fun b b' a1 a2 c1 c2 hne h => hne (brightness_byte_inj a1 a2 c1 c2 h)⟩
  rcases dispatch_inv h1 with ⟨m1, k1⟩ | ⟨m1, k1⟩ | ⟨m1, k1⟩ | ⟨m1, k1⟩ <;>
  rcases dispatch_inv h2 with ⟨m2, k2⟩ | ⟨m2, k2⟩ | ⟨m2, k2⟩ | ⟨m2, k2⟩
  -- solid
  · obtain ⟨r, g, b, hc, e1⟩ := setSolid_inv k1
    obtain ⟨r', g', b', hc', e2⟩ := setSolid_inv k2
    rw [e1] at e2
    simp only [List.cons.injEq, and_true, true_and] at e2
    obtain ⟨rfl, rfl, rfl⟩ := e2
    exact ⟨_, commandOf_solid m1 hc, commandOf_solid m2 hc'⟩
  · obtain ⟨r, g, b, hc, e1⟩ := setSolid_inv k1
    obtain ⟨_, _, -, -, -, -, e2⟩ := setCycle_inv k2
    rw [e1] at e2
    simp at e2
  · obtain ⟨r, g, b, hc, e1⟩ := setSolid_inv k1
    obtain ⟨_, _, _, _, _, -, -, -, -, -, e2⟩ := setBreathe_inv k2
    rw [e1] at e2
    simp at e2
  · obtain ⟨r, g, b, hc, e1⟩ := setSolid_inv k1
    obtain ⟨_, -, e2⟩ := setIntro_inv k2
    rw [e1] at e2
    simp at e2
  -- cycle
  · obtain ⟨_, _, -, -, -, -, e1⟩ := setCycle_inv k1
    obtain ⟨r, g, b, hc, e2⟩ := setSolid_inv k2
    rw [e1] at e2
    simp at e2
  · obtain ⟨r1, b1, -, -, hr1, hb1, e1⟩ := setCycle_inv k1
    obtain ⟨r2, b2, -, -, hr2, hb2, e2⟩ := setCycle_inv k2
    rw [e1] at e2
    simp only [List.cons.injEq, and_true, true_and] at e2
    obtain ⟨x1, x2, x3⟩ := e2
    have ra := parseRate_range hr1
    have rb := parseRate_range hr2
    have ba := parseBrightness_range hb1
    have bb := parseBrightness_range hb2
    have er := rate_bytes_inj ra.1 ra.2 rb.1 rb.2 x1 x2
    have eb := brightness_byte_inj ba.1 ba.2 bb.1 bb.2 x3
    subst er eb
    exact ⟨_, commandOf_cycle m1 hr1 hb1, commandOf_cycle m2 hr2 hb2⟩
  · obtain ⟨_, _, -, -, -, -, e1⟩ := setCycle_inv k1
    obtain ⟨_, _, _, _, _, -, -, -, -, -, e2⟩ := setBreathe_inv k2
    rw [e1] at e2
    simp at e2
  · obtain ⟨_, _, -, -, -, -, e1⟩ := setCycle_inv k1
    obtain ⟨_, -, e2⟩ := setIntro_inv k2
    rw [e1] at e2
    simp at e2
  -- breathe
  · obtain ⟨_, _, _, _, _, -, -, -, -, -, e1⟩ := setBreathe_inv k1
    obtain ⟨r, g, b, hc, e2⟩ := setSolid_inv k2
    rw [e1] at e2
    simp at e2
  · obtain ⟨_, _, _, _, _, -, -, -, -, -, e1⟩ := setBreathe_inv k1
    obtain ⟨_, _, -, -, -, -, e2⟩ := setCycle_inv k2
    rw [e1] at e2
    simp at e2
  · obtain ⟨r, g, b, r1, b1, -, -, hc1, hr1, hb1, e1⟩ := setBreathe_inv k1
    obtain ⟨r', g', b', r2, b2, -, -, hc2, hr2, hb2, e2⟩ := setBreathe_inv k2
    rw [e1] at e2
    simp only [List.cons.injEq, and_true, true_and] at e2
    obtain ⟨rfl, rfl, rfl, x1, x2, x3⟩ := e2
    have ra := parseRate_range hr1
    have rb := parseRate_range hr2
    have ba := parseBrightness_range hb1
    have bb := parseBrightness_range hb2
    have er := rate_bytes_inj ra.1 ra.2 rb.1 rb.2 x1 x2
    have eb := brightness_byte_inj ba.1 ba.2 bb.1 bb.2 x3
    subst er eb
    exact ⟨_, commandOf_breathe m1 hc1 hr1 hb1, commandOf_breathe m2 hc2 hr2 hb2⟩
  · obtain ⟨_, _, _, _, _, -, -, -, -, -, e1⟩ := setBreathe_inv k1
    obtain ⟨_, -, e2⟩ := setIntro_inv k2
    rw [e1] at e2
    simp at e2
  -- intro
  · obtain ⟨_, -, e1⟩ := setIntro_inv k1
    obtain ⟨r, g, b, hc, e2⟩ := setSolid_inv k2
    rw [e1] at e2
    simp at e2
  · obtain ⟨_, -, e1⟩ := setIntro_inv k1
    obtain ⟨_, _, -, -, -, -, e2⟩ := setCycle_inv k2
    rw [e1] at e2
    simp at e2
  · obtain ⟨_, -, e1⟩ := setIntro_inv k1
    obtain ⟨_, _, _, _, _, -, -, -, -, -, e2⟩ := setBreathe_inv k2
    rw [e1] at e2
    simp at e2
  · obtain ⟨v1, hv1, e1⟩ := setIntro_inv k1
    obtain ⟨v2, hv2, e2⟩ := setIntro_inv k2
    rw [e1] at e2
    simp only [List.cons.injEq, and_true, true_and] at e2
    subst e2
    exact ⟨_, commandOf_intro m1 hv1, commandOf_intro m2 hv2⟩

/-- C19, at `solid ff0000` and `solid #FF0000`: both hand over the payload
11 FF 0E 10 00 01 FF 00 00 02 .. 01 .. and both stand for the command solid(FF, 00, 00). -/
theorem payload_injective_witness :
    (dispatch ["solid".toList, "ff0000".toList] =
        .ok [0x11, 0xFF, 0x0E, 0x10, 0x00, 0x01, 0xFF, 0x00, 0x00, 0x02,
             0, 0, 0, 0, 0, 0, 0x01, 0, 0, 0] ∧
      dispatch ["solid".toList, "#FF0000".toList] =
        .ok [0x11, 0xFF, 0x0E, 0x10, 0x00, 0x01, 0xFF, 0x00, 0x00, 0x02,
             0, 0, 0, 0, 0, 0, 0x01, 0, 0, 0]) ∧
    (commandOf ["solid".toList, "ff0000".toList] = some (.solid 0xFF 0x00 0x00) ∧
      commandOf ["solid".toList, "#FF0000".toList] = some (.solid 0xFF 0x00 0x00)) ∧
    ∃ c, commandOf ["solid".toList, "ff0000".toList] = some c ∧
      commandOf ["solid".toList, "#FF0000".toList] = some c :=
  ⟨by decide, by decide,
   (payload_injective ["solid".toList, "ff0000".toList] ["solid".toList, "#FF0000".toList]
     [0x11, 0xFF, 0x0E, 0x10, 0x00, 0x01, 0xFF, 0x00, 0x00, 0x02,
      0, 0, 0, 0, 0, 0, 0x01, 0, 0, 0] (by decide) (by decide)).1⟩

end Gled
